import Mathlib

/-!
Verification of the helpbot session routing and handler lifecycle engine.

The definitions below are a shallow embedding of the Python sources:
`services/dialogue_service.py`, `services/dialogue_router.py`,
`services/command_processor.py`, `services/operator_commands.py`,
`services/dialogue_states.py`, `core/input_service.py`,
`core/message_service.py`, and the models in `models/`. External effects
(Telegram sends, forum topic creation) are modelled as parameters and as a
record of emitted notices; database rows are modelled as Lean structures and
the SQLAlchemy session as explicit state passing.
-/

namespace Helpbot

/-- Python `str.lower()`: the strings the engine lowercases are ASCII
command and state names, so lowering characterwise is exact. -/
def strLower (s : String) : String := String.mk (s.toList.map Char.toLower)

/-- Python `text.startswith(c)` for a single-character sentinel. -/
def startsWithChar (t : String) (c : Char) : Bool :=
  match t.toList with
  | [] => false
  | c0 :: _ => c0 == c

/-- Fine-grained dialogue states, from `services/dialogue_states.py`
(`DialogueState` enum). -/
inductive DialogueState
  | waiting_operator
  | in_progress
  | resolved
  | closed
  | spam
deriving DecidableEq, Repr

/-- `str(DialogueState)` : the stored string value of a state. -/
def DialogueState.toStr : DialogueState → String
  | .waiting_operator => "waiting_operator"
  | .in_progress => "in_progress"
  | .resolved => "resolved"
  | .closed => "closed"
  | .spam => "spam"

/-- `DialogueState.from_string`: parse a stored string, falling back to
`WAITING_OPERATOR` for unrecognized values (lowercasing first). -/
def DialogueState.fromString (s : String) : DialogueState :=
  match strLower s with
  | "waiting_operator" => .waiting_operator
  | "in_progress" => .in_progress
  | "resolved" => .resolved
  | "closed" => .closed
  | "spam" => .spam
  | _ => .waiting_operator

/-- Ticket statuses, from `models/ticket.py` (`TicketStatus`). -/
inductive TicketStatus
  | opened
  | in_progress
  | waiting_client
  | waiting_operator
  | resolved
  | closed
  | spam
deriving DecidableEq, Repr

/-- The JSON value stored in `User.stateFSM`: a state name plus a data
dictionary (`set_fsm_state` stores both; the dictionary is modelled as an
association list of strings). -/
structure FsmData where
  state : String
  data : List (String × String)
deriving DecidableEq, Repr

/-- A `users` row (`models/user.py`), restricted to the columns the routing
engine reads. -/
structure UserRec where
  userID : Nat
  telegramID : Nat
  stateFSM : Option FsmData
deriving DecidableEq, Repr

/-- `User.get_fsm_state`. -/
def UserRec.getFsmState (u : UserRec) : Option String :=
  u.stateFSM.map (·.state)

/-- Modelled from the spec: `get_fsm_context` is called throughout
`dialogue_service.py` and `dialogue_router.py` but its definition is not in
the sources (`models/user.py` only defines `get_fsm_data`); per the spec the
persisted session pointer is the context bag saved together with the client
FSM state, so reading it returns the stored data dictionary, empty when no
FSM state is set. -/
def UserRec.getFsmContext (u : UserRec) : List (String × String) :=
  match u.stateFSM with
  | some f => f.data
  | none => []

/-- `User.set_fsm_state`. -/
def UserRec.setFsmState (u : UserRec) (st : String)
    (data : List (String × String)) : UserRec :=
  { u with stateFSM := some ⟨st, data⟩ }

/-- `User.clear_fsm`. -/
def UserRec.clearFsm (u : UserRec) : UserRec :=
  { u with stateFSM := none }

/-- `dict.get(key)` on a JSON dictionary modelled as an association list. -/
def ctxGet (d : List (String × String)) (k : String) : Option String :=
  (d.find? (fun kv => kv.1 == k)).map (·.2)

/-- `dict.update`: insert or replace each binding of `add` in `base`. -/
def ctxUpdate (base add : List (String × String)) : List (String × String) :=
  add.foldl (fun b kv =>
    if (b.find? (fun kv2 => kv2.1 == kv.1)).isSome then
      b.map (fun kv2 => if kv2.1 == kv.1 then (kv2.1, kv.2) else kv2)
    else b ++ [kv]) base

/-- A `tickets` row (`models/ticket.py`), restricted to what the engine
touches. -/
structure TicketRec where
  ticketID : Nat
  userID : Nat
  dialogueID : Option String
  status : TicketStatus
  resolution : Option String
deriving DecidableEq, Repr

/-- A `dialogues` row (`models/dialogue.py`); `notes` is modelled by its
`context` sub-dictionary, the only part the engine updates. -/
structure Dialogue where
  dialogueID : String
  ticketID : Option Nat
  userID : Nat
  operatorID : Option Nat
  groupID : Option Int
  threadID : Option Nat
  status : String
  state : String
  lastActivityTime : Nat
  updatedAt : Nat
  closedAt : Option Nat
  closedBy : Option String
  closeReason : Option String
  messageCount : Nat
  notesContext : List (String × String)
deriving DecidableEq, Repr

/-- The persistent store: `users`, `dialogues`, `tickets` tables plus the
set of known operator ids (`models/operator.py`, only existence is read by
`_create_forum_topic`). -/
structure DB where
  users : List UserRec
  dialogues : List Dialogue
  tickets : List TicketRec
  operators : List Nat
deriving DecidableEq, Repr

/-- `session.query(User).filter_by(userID=..).first()`. -/
def DB.findUserByID (db : DB) (uid : Nat) : Option UserRec :=
  db.users.find? (fun u => u.userID == uid)

/-- `session.query(User).filter_by(telegramID=..).first()`. -/
def DB.findUserByTelegram (db : DB) (tg : Nat) : Option UserRec :=
  db.users.find? (fun u => u.telegramID == tg)

/-- `session.query(Dialogue).filter_by(dialogueID=..).first()`. -/
def DB.findDialogue (db : DB) (id : String) : Option Dialogue :=
  db.dialogues.find? (fun d => d.dialogueID == id)

/-- `session.query(Dialogue).filter_by(dialogueID=.., status='active').first()`. -/
def DB.findActiveDialogue (db : DB) (id : String) : Option Dialogue :=
  db.dialogues.find? (fun d => d.dialogueID == id && d.status == "active")

/-- `session.query(Ticket).filter_by(ticketID=..).first()`. -/
def DB.findTicket (db : DB) (t : Nat) : Option TicketRec :=
  db.tickets.find? (fun tk => tk.ticketID == t)

/-- Mutate the first element satisfying `p` (an ORM object update touches
exactly the row the preceding `first()` query returned). -/
def updateFirst (p : α → Bool) (f : α → α) : List α → List α
  | [] => []
  | x :: xs => if p x then f x :: xs else x :: updateFirst p f xs

/-- Update the first user row with the given `userID`. -/
def DB.updateUserByID (db : DB) (uid : Nat) (f : UserRec → UserRec) : DB :=
  { db with users := updateFirst (fun u => u.userID == uid) f db.users }

/-- Update the first user row with the given `telegramID`. -/
def DB.updateUserByTelegram (db : DB) (tg : Nat) (f : UserRec → UserRec) : DB :=
  { db with users := updateFirst (fun u => u.telegramID == tg) f db.users }

/-- Update the first dialogue row with the given id. -/
def DB.updateDialogue (db : DB) (id : String) (f : Dialogue → Dialogue) : DB :=
  { db with dialogues := updateFirst (fun d => d.dialogueID == id) f db.dialogues }

/-- Update the first ticket row with the given id. -/
def DB.updateTicket (db : DB) (t : Nat) (f : TicketRec → TicketRec) : DB :=
  { db with tickets := updateFirst (fun tk => tk.ticketID == t) f db.tickets }

/-! ### Handler registry (`core/input_service.py`)

`InputService` keeps a bookkeeping dictionary `self.handlers` keyed by the
handler id string (`user_<id>_<state or any>` for user handlers,
`thread_<group>_<thread>` for thread handlers) and mirrors every entry in the
aiogram router's handler list (`self.router.message.handlers`). Ids are
modelled by an inductive key type: the id strings are injective images of
these keys (user ids and thread ids are decimal digits, so the underscore
delimiters recover the components). -/

/-- An endpoint key: `user_<uid>_<state or any>` or `thread_<gid>_<tid>`. -/
inductive HKey
  | user (uid : Nat) (state : Option String)
  | thread (gid : Int) (tid : Nat)
deriving DecidableEq, Repr

/-- Does the id string start with `user_<uid>_` (the `cleanup_user_handlers`
match)? -/
def HKey.isUserOf (uid : Nat) : HKey → Bool
  | .user u _ => u == uid
  | .thread _ _ => false

/-- One registration: the key it was registered under and the unique counter
value baked into its `handler_unique_id` (this also stands for the
`HandlerObject` aiogram returns, which is removed from the router list by
identity). -/
structure HandlerEntry where
  key : HKey
  uniqueId : Nat
deriving DecidableEq, Repr

/-- The `InputService` state: the bookkeeping dict (as an insertion-ordered
association list), the aiogram router's handler list, and
`_handler_counter`. -/
structure Registry where
  handlers : List (HKey × HandlerEntry)
  routerHandlers : List HandlerEntry
  counter : Nat
deriving DecidableEq, Repr

/-- A freshly constructed `InputService`. -/
def Registry.empty : Registry := ⟨[], [], 0⟩

/-- `handler_id in self.handlers` / `self.handlers[handler_id]`. -/
def Registry.lookup (r : Registry) (k : HKey) : Option HandlerEntry :=
  (r.handlers.find? (fun kv => kv.1 == k)).map (·.2)

/-- `unregister_user_handler` / `unregister_thread_handler`: when the key is
present, remove the stored handler object from the router list and delete
the dictionary entry; otherwise a no-op. -/
def Registry.unregisterKey (r : Registry) (k : HKey) : Registry :=
  match r.lookup k with
  | none => r
  | some e =>
      { r with
        routerHandlers := r.routerHandlers.erase e,
        handlers := r.handlers.filter (fun kv => !(kv.1 == k)) }

/-- `register_user_handler` / `register_thread_handler`: bump the counter,
remove any existing registration for the key, append the new handler to the
router list and record it in the dictionary. -/
def Registry.registerKey (r : Registry) (k : HKey) : Registry :=
  let c := r.counter + 1
  let r1 : Registry := { r with counter := c }
  let r2 := if (r1.lookup k).isSome then r1.unregisterKey k else r1
  let e : HandlerEntry := ⟨k, c⟩
  { r2 with
    routerHandlers := r2.routerHandlers ++ [e],
    handlers := r2.handlers ++ [(k, e)] }

/-- `cleanup_user_handlers`: unregister every key of the form
`user_<uid>_...`, iterating over a snapshot of the matching ids. -/
def Registry.cleanupUser (r : Registry) (uid : Nat) : Registry :=
  let ks := (r.handlers.filter (fun kv => kv.1.isUserOf uid)).map (·.1)
  ks.foldl Registry.unregisterKey r

/-- The `InputService` mutating entry points, as an operation alphabet. -/
inductive RegOp
  | registerUser (uid : Nat) (state : Option String)
  | registerThread (gid : Int) (tid : Nat)
  | unregisterUser (uid : Nat) (state : Option String)
  | unregisterThread (gid : Int) (tid : Nat)
  | cleanupUser (uid : Nat)
deriving DecidableEq, Repr

/-- Apply one `InputService` call. -/
def Registry.applyOp (r : Registry) : RegOp → Registry
  | .registerUser uid st => r.registerKey (.user uid st)
  | .registerThread g t => r.registerKey (.thread g t)
  | .unregisterUser uid st => r.unregisterKey (.user uid st)
  | .unregisterThread g t => r.unregisterKey (.thread g t)
  | .cleanupUser uid => r.cleanupUser uid

/-- Run a sequence of `InputService` calls from a fresh service. -/
def Registry.applyOps (ops : List RegOp) : Registry :=
  ops.foldl Registry.applyOp Registry.empty

/-! ### Inbound message filters (`core/input_service.py`) -/

/-- `message.from_user`. -/
structure MsgUser where
  id : Nat
  isBot : Bool
deriving DecidableEq, Repr

/-- An inbound Telegram message, restricted to the attributes the filters
read. `mediaKinds` lists the media attributes that are not `None`. -/
structure Msg where
  fromUser : Option MsgUser
  chatId : Int
  threadId : Option Nat
  text : Option String
  mediaKinds : List String
deriving DecidableEq, Repr

/-- `getattr(message, msg_type, None) is not None`. -/
def Msg.hasAttr (m : Msg) (t : String) : Bool :=
  if t == "text" then m.text.isSome else m.mediaKinds.contains t

/-- The `user_filter` closure built by `register_user_handler`: reject bot
messages, messages from other users, texts starting with the command
sentinel, messages without a requested media type, and (when a state is
required) users whose FSM state differs; accept otherwise. -/
def userFilter (db : DB) (uid : Nat) (state : Option String)
    (messageTypes : Option (List String)) (m : Msg) : Bool :=
  match m.fromUser with
  | none => false
  | some fu =>
      if fu.isBot then false
      else if !(fu.id == uid) then false
      else if (match m.text with
               | some t => startsWithChar t '&'
               | none => false) then false
      else if (match messageTypes with
               | some ts => !ts.isEmpty && !(ts.any m.hasAttr)
               | none => false) then false
      else
        match state with
        | none => true
        | some st =>
            match db.findUserByTelegram uid with
            | none => false
            | some u => u.getFsmState == some st

/-! ### System state: store + registry + emitted sends -/

/-- Where a send is addressed (`DialogueEndpoint` / direct telegram id). -/
inductive SendTarget
  | userTg (tg : Nat)
  | groupThread (gid : Option Int) (tid : Option Nat)
deriving DecidableEq, Repr

/-- One call into the message service: target and template key (forwards and
raw sends are recorded with a pseudo key). -/
structure Notice where
  target : SendTarget
  template : String
deriving DecidableEq, Repr

/-- The full engine state: persistent store, in-memory handler registry, and
the list of send attempts handed to the message service. -/
structure Sys where
  db : DB
  reg : Registry
  outbox : List Notice
deriving DecidableEq, Repr

/-! ### Session lifecycle (`services/dialogue_service.py`) -/

/-- The dialogue row `create_support_dialogue` inserts. -/
def newDialogueRow (dialogueId : String) (ticketID clientUserID operatorId : Nat)
    (groupId : Int) (threadId : Nat) (ctx : List (String × String))
    (now : Nat) : Dialogue :=
  { dialogueID := dialogueId
    ticketID := some ticketID
    userID := clientUserID
    operatorID := some operatorId
    groupID := some groupId
    threadID := some threadId
    status := "active"
    state := DialogueState.in_progress.toStr
    lastActivityTime := now
    updatedAt := now
    closedAt := none
    closedBy := none
    closeReason := none
    messageCount := 0
    notesContext := ctx }

/-- The FSM context `create_support_dialogue` stores on the client (the
persisted session pointer). -/
def newFsmCtx (dialogueId : String) (ticketID threadId operatorId now : Nat) :
    List (String × String) :=
  [("dialogue_id", dialogueId),
   ("ticket_id", toString ticketID),
   ("thread_id", toString threadId),
   ("operator_id", toString operatorId),
   ("created_at", toString now)]

/-- `DialogueService.create_support_dialogue`. External inputs are the
configured `GROUP_ID` (`0` means unconfigured) and the result of
`bot.create_forum_topic` (`none` models a gateway failure). The dialogue row
insert commits only if the `dialogueID` primary key is fresh; a duplicate id
makes the transaction fail and roll back, and the function returns `none`
from its exception handler. -/
def createSupportDialogue (s : Sys) (ticketID operatorId : Nat) (groupId : Int)
    (threadResult : Option Nat) (ctx : List (String × String)) (now : Nat) :
    Sys × Option String :=
  let dialogueId := "support_" ++ toString ticketID
  if groupId == 0 then (s, none)
  else if !(s.db.operators.contains operatorId) then (s, none)
  else
    match s.db.findTicket ticketID with
    | none => (s, none)
    | some tk =>
      match threadResult with
      | none => (s, none)
      | some threadId =>
        match s.db.findUserByID tk.userID with
        | none => (s, none)
        | some clientUser =>
          if (s.db.findDialogue dialogueId).isSome then (s, none)
          else
            let dlg : Dialogue := newDialogueRow dialogueId ticketID
              clientUser.userID operatorId groupId threadId ctx now
            let fsmCtx : List (String × String) :=
              newFsmCtx dialogueId ticketID threadId operatorId now
            let db1 := { s.db with dialogues := s.db.dialogues ++ [dlg] }
            let db2 := db1.updateUserByID tk.userID
              (fun u => u.setFsmState "has_ticket" fsmCtx)
            let db3 := db2.updateTicket ticketID
              (fun t => { t with dialogueID := some dialogueId })
            let reg1 := (s.reg.cleanupUser clientUser.telegramID).registerKey
              (.user clientUser.telegramID (some "has_ticket"))
            let reg2 := reg1.registerKey (.thread groupId threadId)
            let out1 := s.outbox ++
              [⟨.userTg clientUser.telegramID, "/support/dialogue_started"⟩,
               ⟨.groupThread (some groupId) (some threadId),
                "/support/operator_ticket_info"⟩]
            (⟨db3, reg2, out1⟩, some dialogueId)

/-- The row mutation `close_dialogue` applies to the dialogue. -/
def closedUpd (closedBy : String) (reason : Option String) (now : Nat)
    (x : Dialogue) : Dialogue :=
  { x with status := "closed", closedAt := some now,
           closedBy := some closedBy, closeReason := reason }

/-- `DialogueService.close_dialogue`. Returns `false` without any effect
when the dialogue is missing or not `active`; otherwise marks it closed,
clears the client FSM only when it still references this dialogue id,
updates the ticket from the dialogue state, emits closing notices,
unregisters both endpoint handlers and runs the per-user cleanup. -/
def closeDialogue (s : Sys) (dialogueId : String) (closedBy : String)
    (reason : Option String) (now : Nat) : Sys × Bool :=
  match s.db.findDialogue dialogueId with
  | none => (s, false)
  | some d =>
    if !(d.status == "active") then (s, false)
    else
      let clientUser := s.db.findUserByID d.userID
      let clientTg := clientUser.map (·.telegramID)
      let db1 := s.db.updateDialogue dialogueId (closedUpd closedBy reason now)
      let db2 :=
        match clientUser with
        | some u =>
            if u.getFsmState == some "has_ticket" &&
               ctxGet u.getFsmContext "dialogue_id" == some dialogueId then
              db1.updateUserByID d.userID UserRec.clearFsm
            else db1
        | none => db1
      let db3 :=
        match d.ticketID with
        | some t =>
            db2.updateTicket t (fun tk =>
              if d.state == DialogueState.spam.toStr then
                { tk with status := .spam, resolution := some "Marked as spam" }
              else if d.state == DialogueState.resolved.toStr then
                { tk with status := .resolved,
                          resolution := some (reason.getD "Resolved by operator") }
              else
                { tk with status := .closed,
                          resolution := some (reason.getD ("Closed by " ++ closedBy)) })
        | none => db2
      let out1 := s.outbox ++
        (match clientTg with
         | some tg => [⟨.userTg tg, "/support/dialogue_closed"⟩]
         | none => []) ++
        [⟨.groupThread d.groupID d.threadID, "/support/operator_dialogue_closed"⟩]
      let reg1 :=
        match clientTg with
        | some tg => s.reg.unregisterKey (.user tg (some "has_ticket"))
        | none => s.reg
      let reg2 :=
        match d.groupID, d.threadID with
        | some g, some t => reg1.unregisterKey (.thread g t)
        | _, _ => reg1
      let reg3 :=
        match clientTg with
        | some tg => reg2.cleanupUser tg
        | none => reg2
      (⟨db3, reg3, out1⟩, true)

/-- The row mutation `update_dialogue_state` applies: write the new state
and `updatedAt`, merge the context patch into `notes.context`. -/
def stateUpd (newState : DialogueState) (ctx : Option (List (String × String)))
    (now : Nat) (d : Dialogue) : Dialogue :=
  { d with state := newState.toStr, updatedAt := now,
           notesContext :=
             match ctx with
             | some c => ctxUpdate d.notesContext c
             | none => d.notesContext }

/-- `DialogueService.update_dialogue_state`: apply `stateUpd` when the
dialogue exists; no transition validation is performed. -/
def updateDialogueState (db : DB) (dialogueId : String)
    (newState : DialogueState) (ctx : Option (List (String × String)))
    (now : Nat) : DB × Bool :=
  match db.findDialogue dialogueId with
  | none => (db, false)
  | some _ => (db.updateDialogue dialogueId (stateUpd newState ctx now), true)

/-- The stale dialogues one reaper sweep selects:
`status == 'active' and lastActivityTime < now - autoCloseHours`. -/
def staleIds (db : DB) (now autoCloseHours : Nat) : List String :=
  (db.dialogues.filter (fun d =>
    d.status == "active" && d.lastActivityTime < now - autoCloseHours * 3600)).map
    (·.dialogueID)

/-- The row mutation `_check_stale_dialogues` applies to a stale dialogue. -/
def reapUpd (autoCloseHours now : Nat) (x : Dialogue) : Dialogue :=
  { x with state := DialogueState.closed.toStr, status := "closed",
           closedAt := some now, closedBy := some "system",
           closeReason := some ("auto-closed after " ++
             toString autoCloseHours ++ " hours of inactivity") }

/-- The body of `_check_stale_dialogues` for one stale dialogue: close it
inline with `closedBy='system'`, clear the client FSM (without a dialogue id
check), close the ticket, run `cleanup_user_handlers` for the client, and
send the timeout notifications. Note it does not call `close_dialogue` and
does not unregister the thread handler. -/
def reaperStep (autoCloseHours now : Nat) (s : Sys) (dialogueId : String) : Sys :=
  match s.db.findDialogue dialogueId with
  | none => s
  | some d =>
    let clientUser := s.db.findUserByID d.userID
    let clientTg := clientUser.map (·.telegramID)
    let db1 := s.db.updateDialogue dialogueId (reapUpd autoCloseHours now)
    let db2 :=
      match clientUser with
      | some u =>
          if u.getFsmState == some "has_ticket" then
            db1.updateUserByID d.userID UserRec.clearFsm
          else db1
      | none => db1
    let db3 :=
      match d.ticketID with
      | some t =>
          db2.updateTicket t (fun tk =>
            { tk with status := .closed,
                      resolution := some "Auto-closed due to inactivity" })
      | none => db2
    let reg1 :=
      match clientTg with
      | some tg => s.reg.cleanupUser tg
      | none => s.reg
    let out1 := s.outbox ++
      (match clientTg with
       | some tg => [⟨.userTg tg, "/support/dialogue_auto_closed"⟩]
       | none => []) ++
      [⟨.groupThread d.groupID d.threadID, "/support/operator_dialogue_auto_closed"⟩]
    ⟨db3, reg1, out1⟩

/-- One sweep of the stale-session reaper over its query snapshot. -/
def reaperPass (s : Sys) (now autoCloseHours : Nat) : Sys :=
  (staleIds s.db now autoCloseHours).foldl (reaperStep autoCloseHours now) s

/-! ### Message router (`services/dialogue_router.py`) -/

/-- Outcomes of the external gateway calls `route_client_message` makes:
the first delivery attempt, the minimal probe message that tests whether the
thread still exists, the forum-topic recreation, and the retried delivery. -/
structure Gateway where
  sendOk : Bool
  threadProbeOk : Bool
  recreatedThread : Option Nat
  retryOk : Bool
deriving DecidableEq, Repr

/-- `DialogueRouter.route_client_message`: re-read the sender's FSM pointer
and prefer its dialogue id over the claimed one on mismatch; when the
resulting dialogue is missing or inactive, clear the FSM, notify the client
and return `false`; otherwise bump activity, attempt delivery to the
operator thread, and on a deleted-thread failure recreate the topic,
re-register the thread handler and retry once. -/
def routeClientMessage (s : Sys) (fromTg : Nat) (text : Option String)
    (claimedId : String) (gw : Gateway) (now : Nat) : Sys × Bool :=
  match s.db.findUserByTelegram fromTg with
  | none => (s, false)
  | some u =>
    let fsmDid := ctxGet u.getFsmContext "dialogue_id"
    let dialogueId :=
      match fsmDid with
      | some f => if !(f == claimedId) then f else claimedId
      | none => claimedId
    match s.db.findActiveDialogue dialogueId with
    | none =>
        let db1 := s.db.updateUserByTelegram fromTg UserRec.clearFsm
        ({ s with db := db1,
                  outbox := s.outbox ++
                    [⟨.userTg fromTg, "/support/ticket_closed_while_typing"⟩] },
         false)
    | some d =>
        let db1 := s.db.updateDialogue dialogueId (fun x =>
          { x with lastActivityTime := now, messageCount := x.messageCount + 1 })
        let deliveryTemplate :=
          if text.isSome then "/support/operator_client_message"
          else "forward:client"
        let out1 := s.outbox ++ [⟨.groupThread d.groupID d.threadID, deliveryTemplate⟩]
        if gw.sendOk then (⟨db1, s.reg, out1⟩, true)
        else if gw.threadProbeOk then (⟨db1, s.reg, out1⟩, false)
        else
          match d.groupID, d.ticketID.bind s.db.findTicket, gw.recreatedThread with
          | some g, some _, some newTid =>
              let db2 := db1.updateDialogue dialogueId (fun x =>
                { x with threadID := some newTid })
              let out2 := out1 ++
                [⟨.groupThread (some g) (some newTid), "raw:thread_restored"⟩]
              let reg1 :=
                match d.threadID with
                | some oldTid => s.reg.unregisterKey (.thread g oldTid)
                | none => s.reg
              let reg2 := reg1.registerKey (.thread g newTid)
              let out3 := out2 ++
                [⟨.groupThread (some g) (some newTid), deliveryTemplate⟩]
              (⟨db2, reg2, out3⟩, gw.retryOk)
          | _, _, _ => (⟨db1, s.reg, out1⟩, false)

/-! ### Command processor (`services/command_processor.py`,
`services/operator_commands.py`) -/

/-- `CommandConfig` from `operator_commands.py`, with the constructor
defaults for the error and help templates applied. -/
structure CommandConfig where
  name : String
  handler : String
  requires_args : Bool
  min_state : Option DialogueState
  allowed_states : List DialogueState
  template_success : Option String
  template_error : String
  template_help : String
deriving DecidableEq, Repr

/-- The `OPERATOR_COMMANDS` registry. -/
def OPERATOR_COMMANDS : List (String × CommandConfig) :=
  [("&end",
    { name := "&end", handler := "end_ticket", requires_args := true,
      min_state := some .in_progress, allowed_states := [],
      template_success := some "/support/operator_ticket_resolved",
      template_error := "/support/operator_command_error",
      template_help := "/support/help_end_command" }),
   ("&spam",
    { name := "&spam", handler := "mark_spam", requires_args := false,
      min_state := none,
      allowed_states := [.waiting_operator, .in_progress],
      template_success := some "/support/operator_marked_spam",
      template_error := "/support/operator_command_error",
      template_help := "/support/help_spam_command" }),
   ("&info",
    { name := "&info", handler := "show_info", requires_args := false,
      min_state := some .in_progress, allowed_states := [],
      template_success := some "/support/operator_user_info",
      template_error := "/support/operator_command_error",
      template_help := "/support/help_info_command" }),
   ("&history",
    { name := "&history", handler := "show_history", requires_args := false,
      min_state := some .in_progress, allowed_states := [],
      template_success := some "/support/operator_ticket_history",
      template_error := "/support/operator_command_error",
      template_help := "/support/help_history_command" }),
   ("&help",
    { name := "&help", handler := "show_help", requires_args := false,
      min_state := none, allowed_states := [],
      template_success := some "/support/operator_help",
      template_error := "/support/operator_command_error",
      template_help := "/support/operator_command_help" })]

/-- `get_command_config`. -/
def getCommandConfig (cmd : String) : Option CommandConfig :=
  (OPERATOR_COMMANDS.find? (fun kv => kv.1 == strLower cmd)).map (·.2)

/-- The handler names `CommandProcessor.__init__` maps to methods. -/
def handlerNames : List String :=
  ["end_ticket", "mark_spam", "show_info", "show_history", "show_help"]

/-- `CommandProcessor._parse_command`: `text.split(maxsplit=1)` then
lowercase the command part. -/
def parseCommand (text : String) : String × String :=
  let cs := text.toList
  let cmd := cs.takeWhile (fun c => !(c == ' '))
  let rest := (cs.dropWhile (fun c => !(c == ' '))).dropWhile (fun c => c == ' ')
  (strLower (String.mk cmd), String.mk rest)

/-- The state ordering list from `_check_state_requirements`. -/
def stateOrder : List DialogueState :=
  [.waiting_operator, .in_progress, .resolved, .closed, .spam]

/-- `CommandProcessor._check_state_requirements`: membership when
`allowed_states` is non-empty, else index comparison against `min_state`,
else allowed. -/
def checkStateRequirements (cfg : CommandConfig) (cur : DialogueState) : Bool :=
  if !cfg.allowed_states.isEmpty then cfg.allowed_states.contains cur
  else
    match cfg.min_state with
    | some m => stateOrder.indexOf m ≤ stateOrder.indexOf cur
    | none => true

/-- How one `process_command` call ended (whose handler ran, if any). -/
inductive CmdOutcome
  | unknownCommand
  | dialogueNotFound
  | stateRejected
  | argsRejected
  | handlerMissing
  | executed (handler : String)
deriving DecidableEq, Repr

/-- `_send_to_operator`: template send into the dialogue's thread. -/
def sendToOperator (s : Sys) (dialogueId : String) (templateKey : String) : Sys :=
  match s.db.findDialogue dialogueId with
  | some d => { s with outbox := s.outbox ++
      [⟨.groupThread d.groupID d.threadID, templateKey⟩] }
  | none => s

/-- `CommandProcessor._handle_end_ticket`: set the dialogue state to
`RESOLVED`, resolve the ticket, send the success template and close the
dialogue as `operator`. -/
def handleEndTicket (s : Sys) (dialogueId : String) (d : Dialogue)
    (args : String) (cfg : CommandConfig) (now : Nat) : Sys :=
  let resolution := if args == "" then "Issue resolved by operator" else args
  let db1 := (updateDialogueState s.db dialogueId .resolved
    (some [("resolution", resolution)]) now).1
  let db2 :=
    match d.ticketID with
    | some t => db1.updateTicket t (fun tk =>
        { tk with status := .resolved, resolution := some resolution })
    | none => db1
  let s1 : Sys := { s with db := db2 }
  let s2 :=
    match cfg.template_success with
    | some key => sendToOperator s1 dialogueId key
    | none => s1
  (closeDialogue s2 dialogueId "operator" (some ("Resolved: " ++ resolution)) now).1

/-- `CommandProcessor._handle_mark_spam`: set the dialogue state to `SPAM`,
mark the ticket, send the success template and close the dialogue. -/
def handleMarkSpam (s : Sys) (dialogueId : String) (d : Dialogue)
    (cfg : CommandConfig) (now : Nat) : Sys :=
  let db1 := (updateDialogueState s.db dialogueId .spam none now).1
  let db2 :=
    match d.ticketID with
    | some t => db1.updateTicket t (fun tk =>
        { tk with status := .spam, resolution := some "Marked as spam by operator" })
    | none => db1
  let s1 : Sys := { s with db := db2 }
  let s2 :=
    match cfg.template_success with
    | some key => sendToOperator s1 dialogueId key
    | none => s1
  (closeDialogue s2 dialogueId "operator" (some "spam") now).1

/-- Dispatch to the named handler method (the informational handlers only
emit a templated send). -/
def runCommandHandler (s : Sys) (handler : String) (dialogueId : String)
    (d : Dialogue) (args : String) (cfg : CommandConfig) (now : Nat) : Sys :=
  if handler == "end_ticket" then handleEndTicket s dialogueId d args cfg now
  else if handler == "mark_spam" then handleMarkSpam s dialogueId d cfg now
  else if handler == "show_info" then
    -- the full/basic template choice depends on external mainbot data,
    -- modelled here as the basic variant
    sendToOperator s dialogueId "/support/operator_user_info_basic"
  else if handler == "show_history" then
    match cfg.template_success with
    | some key => sendToOperator s dialogueId key
    | none => s
  else
    match cfg.template_success with
    | some key => sendToOperator s dialogueId key
    | none => s

/-- `CommandProcessor.process_command`: parse, look up the command spec,
check the dialogue and its state requirements, check the argument
requirement, then dispatch to the named handler. The outcome records which
branch was taken. -/
def processCommand (s : Sys) (text : String) (dialogueId : String)
    (now : Nat) : Sys × CmdOutcome :=
  let (cmd, args) := parseCommand text
  match getCommandConfig cmd with
  | none => (sendToOperator s dialogueId "/support/operator_unknown_command",
             .unknownCommand)
  | some cfg =>
    match s.db.findDialogue dialogueId with
    | none => (s, .dialogueNotFound)
    | some d =>
      let cur := DialogueState.fromString d.state
      if !(checkStateRequirements cfg cur) then
        (sendToOperator s dialogueId cfg.template_error, .stateRejected)
      else if cfg.requires_args && args == "" then
        (sendToOperator s dialogueId cfg.template_help, .argsRejected)
      else if !(handlerNames.contains cfg.handler) then
        (s, .handlerMissing)
      else
        (runCommandHandler s cfg.handler dialogueId d args cfg now,
         .executed cfg.handler)

/-- `process_command`'s boolean result: `True` for every handled branch
(including rejections), `False` when the dialogue or handler is missing. -/
def CmdOutcome.toBool : CmdOutcome → Bool
  | .dialogueNotFound => false
  | .handlerMissing => false
  | _ => true

/-! ### Outbound queue (`core/message_service.py`, `MessageQueue`) -/

/-- One queued item: whether the fresh user lookup succeeds (items carrying
a `user` object are skipped with `continue` when it fails) and whether the
send callback succeeds (a `TelegramAPIError` is logged and the item is
dropped). -/
structure QItem where
  userLookupOk : Bool
  sendOk : Bool
deriving DecidableEq, Repr

/-- The item results in a recorded send timestamp. -/
def QItem.sendSucceeds (i : QItem) : Bool := i.userLookupOk && i.sendOk

/-- The queue state: pending items and `sent_in_last_minute` timestamps
(seconds). -/
structure MQ where
  queue : List QItem
  sent : List Nat
deriving DecidableEq, Repr

/-- One pass of the `while self.queue` loop body in `_process_queue` at time
`now`: prune timestamps older than 60 seconds; if the pruned window has
reached `max_per_minute`, sleep (send nothing); otherwise pop up to
`burst_limit` items and send them, recording a timestamp per successful
send. Returns the new state and the number of sends. -/
def queueIteration (maxPerMinute burstLimit now : Nat) (s : MQ) : MQ × Nat :=
  let pruned := s.sent.filter (fun t => now - t < 60)
  if maxPerMinute ≤ pruned.length then
    ({ queue := s.queue, sent := pruned }, 0)
  else
    let n := min s.queue.length burstLimit
    let k := ((s.queue.take n).filter QItem.sendSucceeds).length
    ({ queue := s.queue.drop n, sent := pruned ++ List.replicate k now }, k)

/-- A schedule event: an `add_message` enqueue, or one drain-loop pass at a
given time. -/
inductive QEvent
  | enq (i : QItem)
  | iter (now : Nat)
deriving DecidableEq, Repr

/-- Run a schedule, also accumulating the ghost history of all send
timestamps. -/
def runQueue (maxPerMinute burstLimit : Nat) :
    List QEvent → MQ → List Nat → MQ × List Nat
  | [], s, h => (s, h)
  | .enq i :: es, s, h =>
      runQueue maxPerMinute burstLimit es { s with queue := s.queue ++ [i] } h
  | .iter t :: es, s, h =>
      let r := queueIteration maxPerMinute burstLimit t s
      runQueue maxPerMinute burstLimit es r.1 (h ++ List.replicate r.2 t)

/-- Number of sends whose timestamp lies in the trailing 60-second window
ending at `T`. -/
def windowCount (T : Nat) (h : List Nat) : Nat :=
  (h.filter (fun x => x ≤ T && T - x < 60)).length

/-- Iteration times never decrease along a schedule (the event loop's
clock). -/
def timesMono : Nat → List QEvent → Prop
  | _, [] => True
  | t0, .enq _ :: es => timesMono t0 es
  | t0, .iter t :: es => t0 ≤ t ∧ timesMono t es

/-! ### List helper lemmas -/

theorem find?_some_decomp {α} (p : α → Bool) (l : List α) (x : α)
    (h : l.find? p = some x) :
    ∃ l₁ l₂, l = l₁ ++ x :: l₂ ∧ (∀ y ∈ l₁, p y = false) ∧ p x = true := by
  induction l with
  | nil => simp at h
  | cons a as ih =>
      by_cases ha : p a
      · have hax : a = x := by
          simp only [List.find?, ha] at h
          exact Option.some_inj.mp h
        subst hax
        exact ⟨[], as, by simp, by simp, ha⟩
      · simp only [List.find?, Bool.of_not_eq_true ha] at h
        obtain ⟨l₁, l₂, hdec, hall, hx⟩ := ih h
        refine ⟨a :: l₁, l₂, by simp [hdec], ?_, hx⟩
        intro y hy
        rcases List.mem_cons.mp hy with rfl | hy
        · exact Bool.of_not_eq_true ha
        · exact hall y hy

theorem updateFirst_of_find?_none {α} (p : α → Bool) (f : α → α) (l : List α)
    (h : l.find? p = none) : updateFirst p f l = l := by
  induction l with
  | nil => rfl
  | cons a as ih =>
      rw [List.find?_eq_none] at h
      have ha : p a = false := by
        have := h a (by simp)
        simpa using this
      have has : as.find? p = none := by
        rw [List.find?_eq_none]
        intro x hx
        exact h x (by simp [hx])
      simp [updateFirst, ha, ih has]

theorem updateFirst_decomp {α} (p : α → Bool) (f : α → α) (l l₁ l₂ : List α)
    (x : α) (hdec : l = l₁ ++ x :: l₂) (hall : ∀ y ∈ l₁, p y = false)
    (hx : p x = true) :
    updateFirst p f l = l₁ ++ f x :: l₂ := by
  subst hdec
  induction l₁ with
  | nil => simp [updateFirst, hx]
  | cons a as ih =>
      have ha : p a = false := hall a (by simp)
      simp only [List.cons_append, updateFirst, ha, Bool.false_eq_true,
        if_false, List.append_eq]
      rw [ih (fun y hy => hall y (by simp [hy]))]

theorem find?_append_first {α} (p : α → Bool) (l₁ l₂ : List α) (z : α)
    (hall : ∀ y ∈ l₁, p y = false) (hz : p z = true) :
    (l₁ ++ z :: l₂).find? p = some z := by
  induction l₁ with
  | nil => simp [List.find?, hz]
  | cons a as ih =>
      have ha : p a = false := hall a (by simp)
      simp only [List.cons_append, List.find?, ha]
      exact ih (fun y hy => hall y (by simp [hy]))

theorem find?_updateFirst_same {α} (p : α → Bool) (f : α → α) (l : List α)
    (hf : ∀ a, p a = true → p (f a) = true) :
    (updateFirst p f l).find? p = (l.find? p).map f := by
  cases h : l.find? p with
  | none => rw [updateFirst_of_find?_none p f l h, h]; rfl
  | some x =>
      obtain ⟨l₁, l₂, hdec, hall, hx⟩ := find?_some_decomp p l x h
      rw [updateFirst_decomp p f l l₁ l₂ x hdec hall hx]
      rw [find?_append_first p l₁ l₂ (f x) hall (hf x hx)]
      rfl

theorem find?_updateFirst_proj {α β} (p q : α → Bool) (f : α → α)
    (proj : α → β) (l : List α)
    (hq : ∀ a, q (f a) = q a) (hp : ∀ a, proj (f a) = proj a) :
    ((updateFirst p f l).find? q).map proj = (l.find? q).map proj := by
  induction l with
  | nil => rfl
  | cons a as ih =>
      by_cases ha : p a
      · simp only [updateFirst, if_pos ha, List.find?, hq a]
        cases hqa : q a
        · simpa [hqa] using ih
        · simp [hp a]
      · simp only [updateFirst, if_neg ha, List.find?]
        cases hqa : q a
        · simpa [hqa] using ih
        · simp

theorem find?_updateFirst_other {α} (p q : α → Bool) (f : α → α) (l : List α)
    (hq : ∀ a, q (f a) = q a) (hpq : ∀ a, p a = true → q a = false) :
    (updateFirst p f l).find? q = l.find? q := by
  induction l with
  | nil => rfl
  | cons a as ih =>
      by_cases ha : p a
      · have hqa : q a = false := hpq a ha
        simp only [updateFirst, if_pos ha, List.find?, hq a, hqa]
      · simp only [updateFirst, if_neg ha, List.find?]
        cases hqa : q a
        · simpa [hqa] using ih
        · simp

theorem find?_key_of_mem_nodup {α β} [DecidableEq β] (key : α → β)
    (l : List α) (x : α) (hn : (l.map key).Nodup) (hm : x ∈ l) :
    l.find? (fun a => key a == key x) = some x := by
  induction l with
  | nil => simp at hm
  | cons a as ih =>
      simp only [List.map_cons, List.nodup_cons] at hn
      rcases List.mem_cons.mp hm with rfl | hmem
      · simp [List.find?]
      · have hne : ¬(key a == key x) = true := by
          simp only [beq_iff_eq]
          intro hEq
          exact hn.1 (hEq ▸ List.mem_map_of_mem key hmem)
        simp only [List.find?, Bool.of_not_eq_true hne]
        exact ih hn.2 hmem

theorem length_filter_mono {α} (p q : α → Bool) (l : List α)
    (h : ∀ x ∈ l, p x = true → q x = true) :
    (l.filter p).length ≤ (l.filter q).length := by
  induction l with
  | nil => simp
  | cons a as ih =>
      have ih2 := ih (fun x hx => h x (by simp [hx]))
      by_cases hp : p a
      · have hq : q a = true := h a (by simp) hp
        simp [hp, hq, Nat.succ_le_succ ih2]
      · by_cases hq : q a
        · simp only [List.filter, Bool.of_not_eq_true hp, hq]
          exact Nat.le_succ_of_le ih2
        · simp only [List.filter, Bool.of_not_eq_true hp, Bool.of_not_eq_true hq]
          exact ih2

/-! ### Small facts about the embedded operations -/

@[simp] theorem closedUpd_dialogueID (cb : String) (r : Option String)
    (n : Nat) (x : Dialogue) : (closedUpd cb r n x).dialogueID = x.dialogueID := rfl

@[simp] theorem closedUpd_status (cb : String) (r : Option String)
    (n : Nat) (x : Dialogue) : (closedUpd cb r n x).status = "closed" := rfl

@[simp] theorem stateUpd_dialogueID (st : DialogueState)
    (c : Option (List (String × String))) (n : Nat) (x : Dialogue) :
    (stateUpd st c n x).dialogueID = x.dialogueID := rfl

@[simp] theorem stateUpd_state (st : DialogueState)
    (c : Option (List (String × String))) (n : Nat) (x : Dialogue) :
    (stateUpd st c n x).state = st.toStr := rfl

@[simp] theorem reapUpd_dialogueID (h n : Nat) (x : Dialogue) :
    (reapUpd h n x).dialogueID = x.dialogueID := rfl

@[simp] theorem updateUserByID_dialogues (db : DB) (uid : Nat)
    (f : UserRec → UserRec) : (db.updateUserByID uid f).dialogues = db.dialogues := rfl

@[simp] theorem updateUserByTelegram_dialogues (db : DB) (tg : Nat)
    (f : UserRec → UserRec) :
    (db.updateUserByTelegram tg f).dialogues = db.dialogues := rfl

@[simp] theorem updateTicket_dialogues (db : DB) (t : Nat)
    (f : TicketRec → TicketRec) : (db.updateTicket t f).dialogues = db.dialogues := rfl

@[simp] theorem updateTicket_users (db : DB) (t : Nat)
    (f : TicketRec → TicketRec) : (db.updateTicket t f).users = db.users := rfl

@[simp] theorem updateDialogue_users (db : DB) (id : String)
    (f : Dialogue → Dialogue) : (db.updateDialogue id f).users = db.users := rfl

@[simp] theorem updateDialogue_dialogues (db : DB) (id : String)
    (f : Dialogue → Dialogue) :
    (db.updateDialogue id f).dialogues
      = updateFirst (fun d => d.dialogueID == id) f db.dialogues := rfl

@[simp] theorem updateUserByID_users (db : DB) (uid : Nat)
    (f : UserRec → UserRec) :
    (db.updateUserByID uid f).users = updateFirst (fun u => u.userID == uid) f db.users := rfl

@[simp] theorem findDialogue_updateUserByID (db : DB) (uid : Nat)
    (f : UserRec → UserRec) (id : String) :
    (db.updateUserByID uid f).findDialogue id = db.findDialogue id := rfl

@[simp] theorem findDialogue_updateTicket (db : DB) (t : Nat)
    (f : TicketRec → TicketRec) (id : String) :
    (db.updateTicket t f).findDialogue id = db.findDialogue id := rfl

theorem findDialogue_updateDialogue_self (db : DB) (id : String)
    (f : Dialogue → Dialogue) (hf : ∀ d, (f d).dialogueID = d.dialogueID) :
    (db.updateDialogue id f).findDialogue id = (db.findDialogue id).map f := by
  show (updateFirst _ f db.dialogues).find? _ = _
  exact find?_updateFirst_same _ f db.dialogues (by
    intro a ha
    simpa [hf a] using ha)

theorem findDialogue_updateDialogue_other (db : DB) (id id2 : String)
    (f : Dialogue → Dialogue) (hf : ∀ d, (f d).dialogueID = d.dialogueID)
    (hne : id2 ≠ id) :
    (db.updateDialogue id f).findDialogue id2 = db.findDialogue id2 := by
  show (updateFirst _ f db.dialogues).find? _ = _
  apply find?_updateFirst_other
  · intro a; simp [hf a]
  · intro a ha
    simp only [beq_iff_eq] at ha
    rw [ha, beq_eq_false_iff_ne]
    intro hEq
    exact hne (Eq.symm hEq)

/-! ### Claim C10: the client-side filter rejects command-sentinel texts -/

/-- C10: for every registered client-endpoint handler (any required state,
any message-type restriction) and every inbound message whose text begins
with the command sentinel character, `user_filter` rejects the message, so
such a client message is never routed into the client's session regardless
of the client's FSM state. -/
theorem c10_user_filter_rejects_sentinel (db : DB) (uid : Nat)
    (state : Option String) (mt : Option (List String)) (m : Msg) (t : String)
    (htext : m.text = some t) (hamp : startsWithChar t '&' = true) :
    userFilter db uid state mt m = false := by
  unfold userFilter
  cases hfu : m.fromUser with
  | none => rfl
  | some fu =>
      by_cases hb : fu.isBot
      · simp [hb]
      · by_cases hid : fu.id == uid
        · simp [hb, hid, htext, hamp]
        · simp [hb, hid]

/-- Witness for C10 at a concrete filter configuration and message. -/
theorem c10_user_filter_rejects_sentinel_witness :
    userFilter ⟨[], [], [], []⟩ 5 (some "has_ticket") none
      ⟨some ⟨5, false⟩, 0, none, some "&end", []⟩ = false :=
  c10_user_filter_rejects_sentinel ⟨[], [], [], []⟩ 5 (some "has_ticket") none
    ⟨some ⟨5, false⟩, 0, none, some "&end", []⟩ "&end" rfl (by decide)

/-! ### Claim C7: `update_dialogue_state` performs no transition validation -/

/-- A closed dialogue row used to exercise `update_dialogue_state`. -/
def c7dlg : Dialogue :=
  { dialogueID := "support_1", ticketID := some 1, userID := 1,
    operatorID := some 9, groupID := some 5, threadID := some 11,
    status := "closed", state := "closed", lastActivityTime := 0,
    updatedAt := 0, closedAt := some 0, closedBy := some "operator",
    closeReason := none, messageCount := 3, notesContext := [] }

/-- The store holding only `c7dlg`. -/
def c7db : DB := { users := [], dialogues := [c7dlg], tickets := [], operators := [] }

/-- C7 counterexample: the claim says the CLOSED → IN_PROGRESS transition is
unreachable and must be rejected, but `update_dialogue_state` on a dialogue
whose stored state is `closed` accepts `IN_PROGRESS` (returns `true`) and
writes it. -/
theorem c7_counterexample :
    (c7db.findDialogue "support_1").map Dialogue.state = some "closed" ∧
    (updateDialogueState c7db "support_1" DialogueState.in_progress none 5).2 = true ∧
    (((updateDialogueState c7db "support_1" DialogueState.in_progress none 5).1).findDialogue
        "support_1").map Dialogue.state = some "in_progress" := by
  refine ⟨by decide, by decide, by decide⟩

/-- C7 amended: `update_dialogue_state` succeeds for every existing dialogue
regardless of the requested transition (it validates nothing and writes the
new state unconditionally); it returns `false` only when the dialogue does
not exist. -/
theorem c7_update_state_unvalidated (db : DB) (id : String)
    (st : DialogueState) (ctx : Option (List (String × String))) (now : Nat) :
    ((db.findDialogue id).isSome →
      (updateDialogueState db id st ctx now).2 = true ∧
      (((updateDialogueState db id st ctx now).1).findDialogue id).map
        Dialogue.state = some st.toStr) ∧
    (db.findDialogue id = none →
      updateDialogueState db id st ctx now = (db, false)) := by
  constructor
  · intro h
    obtain ⟨d, hd⟩ := Option.isSome_iff_exists.mp h
    constructor
    · simp [updateDialogueState, hd]
    · have h1 : (updateDialogueState db id st ctx now).1
          = db.updateDialogue id (stateUpd st ctx now) := by
        simp [updateDialogueState, hd]
      rw [h1, findDialogue_updateDialogue_self db id (stateUpd st ctx now)
        (fun d => rfl), hd]
      simp
  · intro h
    simp [updateDialogueState, h]

/-- Witness for C7 amended at the concrete store `c7db`. -/
theorem c7_update_state_unvalidated_witness :
    (updateDialogueState c7db "support_1" DialogueState.resolved none 5).2 = true :=
  (((c7_update_state_unvalidated c7db "support_1" DialogueState.resolved none 5).1)
    (by decide)).1

/-! ### Claim C3: `close_dialogue` is idempotent -/

theorem closeDialogue_success (s : Sys) (id cb : String) (r : Option String)
    (now : Nat) (d : Dialogue) (hd : s.db.findDialogue id = some d)
    (hact : d.status = "active") :
    (closeDialogue s id cb r now).2 = true ∧
    ((closeDialogue s id cb r now).1).db.dialogues
      = updateFirst (fun x => x.dialogueID == id) (closedUpd cb r now)
          s.db.dialogues := by
  simp only [closeDialogue, hd, hact]
  constructor
  · simp
  · cases hcu : s.db.findUserByID d.userID with
    | none =>
        cases htk : d.ticketID <;> simp
    | some u =>
        cases htk : d.ticketID <;> (simp; split <;> simp)

/-- C3: closing an active dialogue returns `true`; a second
`close_dialogue` on the same (now closed) dialogue returns `false` and
changes nothing at all — in particular the handler registry is unaffected
by the second call. -/
theorem c3_close_idempotent (s : Sys) (id cb : String) (r : Option String)
    (now : Nat) (cb2 : String) (r2 : Option String) (now2 : Nat)
    (d : Dialogue) (hd : s.db.findDialogue id = some d)
    (hact : d.status = "active") :
    (closeDialogue s id cb r now).2 = true ∧
    (closeDialogue (closeDialogue s id cb r now).1 id cb2 r2 now2).2 = false ∧
    (closeDialogue (closeDialogue s id cb r now).1 id cb2 r2 now2).1
      = (closeDialogue s id cb r now).1 := by
  obtain ⟨hret, hdlgs⟩ := closeDialogue_success s id cb r now d hd hact
  have hdb : ((closeDialogue s id cb r now).1).db.findDialogue id
      = some (closedUpd cb r now d) := by
    show ((closeDialogue s id cb r now).1).db.dialogues.find? _ = _
    rw [hdlgs]
    rw [find?_updateFirst_same _ (closedUpd cb r now) s.db.dialogues
      (by intro a ha; simpa using ha)]
    rw [show s.db.dialogues.find? (fun d => d.dialogueID == id) = some d from hd]
    rfl
  have h2 : closeDialogue (closeDialogue s id cb r now).1 id cb2 r2 now2
      = ((closeDialogue s id cb r now).1, false) := by
    generalize hgen : (closeDialogue s id cb r now).1 = p1 at hdb
    simp [closeDialogue, hdb, closedUpd,
      (by decide : (("closed" : String) == "active") = false)]
  exact ⟨hret, by rw [h2], by rw [h2]⟩

/-- An active dialogue row for exercising `close_dialogue`. -/
def c3dlg : Dialogue :=
  { dialogueID := "support_3", ticketID := some 3, userID := 1,
    operatorID := some 9, groupID := some 5, threadID := some 11,
    status := "active", state := "in_progress", lastActivityTime := 0,
    updatedAt := 0, closedAt := none, closedBy := none, closeReason := none,
    messageCount := 0, notesContext := [] }

/-- A user, ticket and active dialogue for exercising `close_dialogue`. -/
def c3s : Sys :=
  { db := { users := [⟨1, 700, some ⟨"has_ticket", [("dialogue_id", "support_3")]⟩⟩],
            dialogues := [c3dlg],
            tickets := [⟨3, 1, some "support_3", .in_progress, none⟩],
            operators := [9] },
    reg := Registry.empty,
    outbox := [] }

/-- Witness for C3 at the concrete state `c3s`. -/
theorem c3_close_idempotent_witness :
    (closeDialogue c3s "support_3" "operator" none 10).2 = true ∧
    (closeDialogue (closeDialogue c3s "support_3" "operator" none 10).1
        "support_3" "client" none 20).2 = false ∧
    (closeDialogue (closeDialogue c3s "support_3" "operator" none 10).1
        "support_3" "client" none 20).1
      = (closeDialogue c3s "support_3" "operator" none 10).1 :=
  c3_close_idempotent c3s "support_3" "operator" none 10 "client" none 20
    c3dlg (by decide) (by decide)

/-! ### Claim C5: `route_client_message` on a missing/inactive dialogue -/

/-- C5 amended: when the (possibly pointer-corrected) dialogue id does not
name an active dialogue, `route_client_message` clears the client's FSM
pointer, notifies the client, delivers nothing, and returns `false` — but
it leaves the handler registry unchanged (it performs no handler cleanup in
this path). -/
theorem c5_route_inactive_cleanup (s : Sys) (fromTg : Nat)
    (text : Option String) (claimed : String) (gw : Gateway) (now : Nat)
    (u : UserRec) (hu : s.db.findUserByTelegram fromTg = some u)
    (hnone : s.db.findActiveDialogue
      (match ctxGet u.getFsmContext "dialogue_id" with
       | some f => if !(f == claimed) then f else claimed
       | none => claimed) = none) :
    routeClientMessage s fromTg text claimed gw now =
      ({ s with db := s.db.updateUserByTelegram fromTg UserRec.clearFsm,
                outbox := s.outbox ++
                  [⟨.userTg fromTg, "/support/ticket_closed_while_typing"⟩] },
       false) := by
  simp only [routeClientMessage, hu, hnone]

/-- A client whose pointer names a dialogue that does not exist, with the
client's endpoint handler still registered. -/
def c5s : Sys :=
  { db := { users := [⟨1, 7, some ⟨"has_ticket", [("dialogue_id", "support_9")]⟩⟩],
            dialogues := [], tickets := [], operators := [] },
    reg := Registry.empty.registerKey (.user 7 (some "has_ticket")),
    outbox := [] }

/-- Gateway outcomes where everything external succeeds. -/
def gw0 : Gateway := ⟨true, true, none, true⟩

/-- C5 counterexample: the claim says this path cleans up all handlers
registered for the client, but `route_client_message` leaves the registry
untouched — the client's handler registration survives. -/
theorem c5_counterexample :
    (c5s.reg.lookup (.user 7 (some "has_ticket"))).isSome = true ∧
    c5s.db.findActiveDialogue "support_9" = none ∧
    (routeClientMessage c5s 7 (some "hello") "support_9" gw0 0).2 = false ∧
    ((routeClientMessage c5s 7 (some "hello") "support_9" gw0 0).1).reg = c5s.reg ∧
    (((routeClientMessage c5s 7 (some "hello") "support_9" gw0 0).1).reg.lookup
        (.user 7 (some "has_ticket"))).isSome = true := by
  refine ⟨by decide, by decide, by decide, by decide, by decide⟩

/-- Witness for C5 amended at the concrete state `c5s`. -/
theorem c5_route_inactive_cleanup_witness :
    routeClientMessage c5s 7 (some "hello") "support_9" gw0 0 =
      ({ c5s with db := c5s.db.updateUserByTelegram 7 UserRec.clearFsm,
                  outbox := c5s.outbox ++
                    [⟨.userTg 7, "/support/ticket_closed_while_typing"⟩] },
       false) :=
  c5_route_inactive_cleanup c5s 7 (some "hello") "support_9" gw0 0
    ⟨1, 7, some ⟨"has_ticket", [("dialogue_id", "support_9")]⟩⟩
    (by decide) (by decide)

/-! ### Claim C8: `min_state` gating in the command processor -/

/-- C8 amended: for a command spec with no `allowed_states` and a
`min_state`, the handler is executed iff the session state is at or beyond
`min_state` in the fixed ordering AND the argument requirement is satisfied
AND the handler name is known (the claim's pure iff on the state fails for
`&end` without arguments); when the state is below `min_state` the command
is rejected and the command's error template is sent. -/
theorem c8_min_state_gating (s : Sys) (text did : String) (now : Nat)
    (cfg : CommandConfig) (d : Dialogue) (cmd args : String)
    (m : DialogueState)
    (hpc : parseCommand text = (cmd, args))
    (hcfg : getCommandConfig cmd = some cfg)
    (hallow : cfg.allowed_states = [])
    (hmin : cfg.min_state = some m)
    (hd : s.db.findDialogue did = some d) :
    ((processCommand s text did now).2 = CmdOutcome.executed cfg.handler ↔
      (stateOrder.indexOf m ≤ stateOrder.indexOf (DialogueState.fromString d.state) ∧
       (cfg.requires_args = true → args ≠ "") ∧
       handlerNames.contains cfg.handler = true)) ∧
    (stateOrder.indexOf (DialogueState.fromString d.state) < stateOrder.indexOf m →
      (processCommand s text did now).2 = CmdOutcome.stateRejected ∧
      (processCommand s text did now).1 = sendToOperator s did cfg.template_error) := by
  have hchk : checkStateRequirements cfg (DialogueState.fromString d.state)
      = decide (stateOrder.indexOf m ≤
          stateOrder.indexOf (DialogueState.fromString d.state)) := by
    simp [checkStateRequirements, hallow, hmin]
  by_cases hle : stateOrder.indexOf m ≤
      stateOrder.indexOf (DialogueState.fromString d.state)
  · by_cases hargs : cfg.requires_args = true ∧ args = ""
    · simp only [processCommand, hpc, hcfg, hd, hchk]
      simp [hle, hargs.1, hargs.2, Nat.not_lt_of_le hle]
    · have hne : (cfg.requires_args && args == "") = false := by
        rcases Bool.eq_false_or_eq_true cfg.requires_args with ht | hf
        · simp only [ht, Bool.true_and, beq_eq_false_iff_ne]
          intro hEq
          exact hargs ⟨ht, hEq⟩
        · simp [hf]
      by_cases hhand : handlerNames.contains cfg.handler = true
      · simp only [processCommand, hpc, hcfg, hd, hchk]
        constructor
        · constructor
          · intro _h
            refine ⟨hle, ?_, hhand⟩
            intro hra hEq
            exact hargs ⟨hra, hEq⟩
          · intro _h
            have hmem : cfg.handler ∈ handlerNames := by simpa using hhand
            simp [hle, hne, hmem]
        · intro hlt
          exact absurd hle (Nat.not_le_of_lt hlt)
      · simp only [processCommand, hpc, hcfg, hd, hchk]
        have hmem : cfg.handler ∉ handlerNames := by simpa using hhand
        constructor
        · simp [hle, hne, hmem, hhand]
        · intro hlt
          exact absurd hle (Nat.not_le_of_lt hlt)
  · have hlt := Nat.lt_of_not_le hle
    simp only [processCommand, hpc, hcfg, hd, hchk]
    constructor
    · simp [hle]
    · intro _h
      simp [hle]

/-- A dialogue in state `in_progress` for exercising `process_command`. -/
def c8s : Sys :=
  { db := { users := [⟨1, 7, some ⟨"has_ticket", [("dialogue_id", "support_4")]⟩⟩],
            dialogues := [{ dialogueID := "support_4", ticketID := some 4,
                            userID := 1, operatorID := some 9, groupID := some 5,
                            threadID := some 11, status := "active",
                            state := "in_progress", lastActivityTime := 0,
                            updatedAt := 0, closedAt := none, closedBy := none,
                            closeReason := none, messageCount := 0,
                            notesContext := [] }],
            tickets := [⟨4, 1, some "support_4", .in_progress, none⟩],
            operators := [9] },
    reg := Registry.empty,
    outbox := [] }

/-- C8 counterexample: `&end` has `min_state = IN_PROGRESS` and no
`allowed_states`, and the session is in `IN_PROGRESS` (at `min_state`), yet
the handler is not executed: `&end` without arguments is rejected by the
argument check, refuting the claim's "executes if and only if the state is
at or beyond minState". -/
theorem c8_counterexample :
    (getCommandConfig "&end").map CommandConfig.min_state
      = some (some DialogueState.in_progress) ∧
    (getCommandConfig "&end").map CommandConfig.allowed_states = some [] ∧
    ((c8s.db.findDialogue "support_4").map
      (fun d => DialogueState.fromString d.state)) = some DialogueState.in_progress ∧
    (processCommand c8s "&end" "support_4" 0).2 = CmdOutcome.argsRejected ∧
    (processCommand c8s "&end" "support_4" 0).2 ≠ CmdOutcome.executed "end_ticket" := by
  refine ⟨by decide, by decide, by decide, by decide, by decide⟩

/-- Witness for C8 amended: `&info` (no argument requirement) in state
`IN_PROGRESS`, at its `min_state`, executes the `show_info` handler. -/
theorem c8_min_state_gating_witness :
    (processCommand c8s "&info" "support_4" 0).2
      = CmdOutcome.executed "show_info" := by
  have h := c8_min_state_gating c8s "&info" "support_4" 0
    ((getCommandConfig "&info").get (by decide))
    ((c8s.db.findDialogue "support_4").get (by decide))
    "&info" "" DialogueState.in_progress (by decide) (by decide)
    (by decide) (by decide) (by decide)
  exact (h.1).mpr ⟨by decide, by decide, by decide⟩

/-! ### Claim C4: `create_support_dialogue` and the already-active check -/

/-- C4 amended: with the external steps succeeding (group configured,
operator and client known, topic created), `create_support_dialogue`
succeeds returning `support_<ticketId>` iff no dialogue row — of any
status — already owns that id; when such a row exists (in particular an
active one) it fails by returning `none` with the state unchanged. There is
no explicit active-session precondition check and no distinct
`SessionAlreadyActive` error. -/
theorem c4_create_uniqueness (s : Sys) (t op : Nat) (g : Int) (th : Nat)
    (ctx : List (String × String)) (now : Nat) (tk : TicketRec) (u : UserRec)
    (hg : (g == 0) = false)
    (hop : s.db.operators.contains op = true)
    (htk : s.db.findTicket t = some tk)
    (hu : s.db.findUserByID tk.userID = some u) :
    ((createSupportDialogue s t op g (some th) ctx now).2
        = some ("support_" ++ toString t)
      ↔ s.db.findDialogue ("support_" ++ toString t) = none) ∧
    ((s.db.findDialogue ("support_" ++ toString t)).isSome →
      createSupportDialogue s t op g (some th) ctx now = (s, none)) := by
  by_cases hdup : (s.db.findDialogue ("support_" ++ toString t)).isSome
  · constructor
    · simp only [createSupportDialogue, hg, hop, htk, hu, hdup]
      constructor
      · intro h
        simp at h
      · intro h
        rw [h] at hdup
        simp at hdup
    · intro _h
      simp [createSupportDialogue, hg, hop, htk, hu, hdup]
  · have hnone : s.db.findDialogue ("support_" ++ toString t) = none :=
      Option.not_isSome_iff_eq_none.mp hdup
    constructor
    · simp only [createSupportDialogue, hg, hop, htk, hu, hdup]
      simp [hnone]
    · intro h
      exact absurd h hdup

/-- A closed dialogue row that still owns the id `support_42`. -/
def c4dlg : Dialogue :=
  { dialogueID := "support_42", ticketID := some 42, userID := 1,
    operatorID := some 9, groupID := some 5, threadID := some 11,
    status := "closed", state := "closed", lastActivityTime := 0,
    updatedAt := 0, closedAt := some 1, closedBy := some "operator",
    closeReason := some "done", messageCount := 2, notesContext := [] }

/-- Store for C4: ticket 42 has only a closed dialogue. -/
def c4s : Sys :=
  { db := { users := [⟨1, 70, none⟩],
            dialogues := [c4dlg],
            tickets := [⟨42, 1, some "support_42", .closed, some "done"⟩],
            operators := [9] },
    reg := Registry.empty,
    outbox := [] }

/-- C4 counterexample: ticket 42 has no existing active session, so the
claim's precondition holds and (with every external step succeeding) a
create guarded only by an active-session check would succeed; the code
returns `none` and changes nothing, because the closed dialogue row already
owns the id `support_42` — there is no active-session check. -/
theorem c4_counterexample :
    (c4s.db.dialogues.filter
      (fun d => d.status == "active" && d.ticketID == some 42)).isEmpty = true ∧
    (createSupportDialogue c4s 42 9 5 (some 77) [] 10).2 = none ∧
    (createSupportDialogue c4s 42 9 5 (some 77) [] 10).1 = c4s := by
  refine ⟨by decide, by decide, by decide⟩

/-- Witness for C4 amended at the concrete state `c4s`. -/
theorem c4_create_uniqueness_witness :
    createSupportDialogue c4s 42 9 5 (some 77) [] 10 = (c4s, none) :=
  (c4_create_uniqueness c4s 42 9 5 77 [] 10
      ⟨42, 1, some "support_42", .closed, some "done"⟩ ⟨1, 70, none⟩
      (by decide) (by decide) (by decide) (by decide)).2 (by decide)

/-! ### Claim C2: the registry never holds two registrations per key -/

/-- Well-formedness of the `InputService` state: the bookkeeping dict has
pairwise-distinct keys, each stored entry records its own key, the aiogram
router list is exactly the dict's entries in order, and the counter-derived
unique ids are distinct and bounded by the counter. -/
def RegWF (r : Registry) : Prop :=
  (r.handlers.map (fun kv => kv.1)).Nodup ∧
  (∀ kv ∈ r.handlers, kv.2.key = kv.1) ∧
  r.routerHandlers = r.handlers.map (fun kv => kv.2) ∧
  (r.handlers.map (fun kv => kv.2.uniqueId)).Nodup ∧
  (∀ kv ∈ r.handlers, kv.2.uniqueId ≤ r.counter)

theorem map_eq_of_forall {α β} (f g : α → β) (l : List α)
    (h : ∀ a ∈ l, f a = g a) : l.map f = l.map g := by
  induction l with
  | nil => rfl
  | cons a as ih =>
      simp only [List.map_cons, h a (by simp)]
      rw [ih (fun a ha => h a (by simp [ha]))]

theorem unregisterKey_handlers (r : Registry) (k : HKey) :
    (r.unregisterKey k).handlers = r.handlers.filter (fun kv => !(kv.1 == k)) := by
  unfold Registry.unregisterKey Registry.lookup
  cases hf : r.handlers.find? (fun kv => kv.1 == k) with
  | none =>
      have hall := List.find?_eq_none.mp hf
      symm
      apply List.filter_eq_self.mpr
      intro kv hkv
      simpa using hall kv hkv
  | some kv => rfl

theorem unregisterKey_counter (r : Registry) (k : HKey) :
    (r.unregisterKey k).counter = r.counter := by
  unfold Registry.unregisterKey Registry.lookup
  cases hf : r.handlers.find? (fun kv => kv.1 == k) <;> rfl
theorem regWF_unregisterKey (r : Registry) (k : HKey) (h : RegWF r) :
    RegWF (r.unregisterKey k) := by
  obtain ⟨hkeys, hkf, hrt, hids, hbound⟩ := h
  unfold Registry.unregisterKey Registry.lookup
  cases hf : r.handlers.find? (fun kv => kv.1 == k) with
  | none => exact ⟨hkeys, hkf, hrt, hids, hbound⟩
  | some kv =>
      simp only [Option.map_some']
      obtain ⟨l₁, l₂, hdec, hall, hkvk⟩ := find?_some_decomp _ _ _ hf
      have hkk : kv.1 = k := by simpa using hkvk
      have hkeys' := hkeys
      rw [hdec] at hkeys'
      simp only [List.map_append, List.map_cons] at hkeys'
      have hids' := hids
      rw [hdec] at hids'
      simp only [List.map_append, List.map_cons] at hids'
      have hl₂ : ∀ y ∈ l₂, (y.1 == k) = false := by
        intro y hy
        rw [beq_eq_false_iff_ne]
        intro hyk
        have hnd := (List.nodup_append.mp hkeys').2.1
        have hhead := (List.nodup_cons.mp hnd).1
        apply hhead
        rw [← hkk] at hyk
        exact hyk ▸ List.mem_map_of_mem (fun kv2 => kv2.1) hy
      have hfilter : r.handlers.filter (fun kv2 => !(kv2.1 == k)) = l₁ ++ l₂ := by
        rw [hdec, List.filter_append, List.filter_cons]
        have h1 : l₁.filter (fun kv2 => !(kv2.1 == k)) = l₁ :=
          List.filter_eq_self.mpr (fun y hy => by simp [hall y hy])
        have h2 : l₂.filter (fun kv2 => !(kv2.1 == k)) = l₂ :=
          List.filter_eq_self.mpr (fun y hy => by simp [hl₂ y hy])
        simp [hkvk, h1, h2]
      have hnotid : kv.2.uniqueId ∉ l₁.map (fun kv2 => kv2.2.uniqueId) := by
        intro hmem
        have hdisj := (List.nodup_append.mp hids').2.2
        exact hdisj hmem (by simp)
      have hnot : kv.2 ∉ l₁.map (fun kv2 => kv2.2) := by
        intro hmem
        apply hnotid
        obtain ⟨y, hy, hEq⟩ := List.mem_map.mp hmem
        have hidEq : y.2.uniqueId = kv.2.uniqueId := by rw [hEq]
        rw [← hidEq]
        exact List.mem_map_of_mem (fun kv2 => kv2.2.uniqueId) hy
      have herase : (r.handlers.map (fun kv2 => kv2.2)).erase kv.2
          = (l₁ ++ l₂).map (fun kv2 => kv2.2) := by
        rw [hdec]
        simp only [List.map_append, List.map_cons]
        rw [List.erase_append_right _ hnot, List.erase_cons_head]
      refine ⟨?_, ?_, ?_, ?_, ?_⟩
      · exact List.Nodup.sublist
          ((List.filter_sublist r.handlers).map (fun kv2 => kv2.1)) hkeys
      · intro kv2 hkv2
        exact hkf kv2 (List.mem_of_mem_filter hkv2)
      · show r.routerHandlers.erase kv.2 = _
        rw [hrt, herase, hfilter]
      · exact List.Nodup.sublist
          ((List.filter_sublist r.handlers).map (fun kv2 => kv2.2.uniqueId)) hids
      · intro kv2 hkv2
        exact hbound kv2 (List.mem_of_mem_filter hkv2)

theorem mem_unregisterKey_handlers (r : Registry) (k : HKey)
    (kv : HKey × HandlerEntry) (h : kv ∈ (r.unregisterKey k).handlers) :
    kv ∈ r.handlers := by
  rw [unregisterKey_handlers] at h
  exact List.mem_of_mem_filter h

theorem unregisterKey_key_not_mem (r : Registry) (k : HKey) :
    k ∉ (r.unregisterKey k).handlers.map (fun kv => kv.1) := by
  rw [unregisterKey_handlers]
  intro hmem
  obtain ⟨kv, hkv, hEq⟩ := List.mem_map.mp hmem
  have hp := (List.mem_filter.mp hkv).2
  rw [hEq] at hp
  simp at hp

theorem regWF_extend (r2 : Registry) (k : HKey) (c : Nat)
    (h2 : RegWF r2) (hk : k ∉ r2.handlers.map (fun kv => kv.1))
    (hstrict : ∀ kv ∈ r2.handlers, kv.2.uniqueId < c) :
    RegWF ⟨r2.handlers ++ [(k, ⟨k, c⟩)], r2.routerHandlers ++ [⟨k, c⟩], c⟩ := by
  obtain ⟨hkeys, hkf, hrt, hids, _⟩ := h2
  refine ⟨?_, ?_, ?_, ?_, ?_⟩
  · simp only [List.map_append, List.map_cons, List.map_nil]
    rw [List.nodup_append]
    refine ⟨hkeys, by simp, ?_⟩
    intro a ha hb
    simp only [List.mem_singleton] at hb
    subst hb
    exact hk ha
  · intro kv hkv
    rcases List.mem_append.mp hkv with h1 | h1
    · exact hkf kv h1
    · simp only [List.mem_singleton] at h1
      rw [h1]
  · simp only [List.map_append, List.map_cons, List.map_nil]
    rw [hrt]
  · simp only [List.map_append, List.map_cons, List.map_nil]
    rw [List.nodup_append]
    refine ⟨hids, by simp, ?_⟩
    intro a ha hb
    simp only [List.mem_singleton] at hb
    subst hb
    obtain ⟨kv, hkv, hEq⟩ := List.mem_map.mp ha
    exact absurd hEq (Nat.ne_of_lt (hstrict kv hkv))
  · intro kv hkv
    rcases List.mem_append.mp hkv with h1 | h1
    · exact Nat.le_of_lt (hstrict kv h1)
    · simp only [List.mem_singleton] at h1
      rw [h1]

theorem regWF_registerKey (r : Registry) (k : HKey) (h : RegWF r) :
    RegWF (r.registerKey k) := by
  obtain ⟨hkeys, hkf, hrt, hids, hbound⟩ := h
  have h1 : RegWF ({ r with counter := r.counter + 1 } : Registry) :=
    ⟨hkeys, hkf, hrt, hids, fun kv hkv => Nat.le_succ_of_le (hbound kv hkv)⟩
  have hstrict : ∀ kv ∈ r.handlers, kv.2.uniqueId < r.counter + 1 :=
    fun kv hkv => Nat.lt_succ_of_le (hbound kv hkv)
  by_cases hl : ((({ r with counter := r.counter + 1 } : Registry)).lookup k).isSome
  · have h2 := regWF_unregisterKey _ k h1
    have hext := regWF_extend _ k (r.counter + 1) h2
      (unregisterKey_key_not_mem _ k)
      (fun kv hkv => hstrict kv (mem_unregisterKey_handlers
        ({ r with counter := r.counter + 1 } : Registry) k kv hkv))
    have hcnt := unregisterKey_counter
      ({ r with counter := r.counter + 1 } : Registry) k
    simp only [Registry.registerKey, hl, if_true]
    convert hext using 2
  · have hk : k ∉ r.handlers.map (fun kv => kv.1) := by
      rw [Option.not_isSome_iff_eq_none] at hl
      unfold Registry.lookup at hl
      rw [Option.map_eq_none'] at hl
      intro hmem
      obtain ⟨kv, hkv, hEq⟩ := List.mem_map.mp hmem
      have := List.find?_eq_none.mp hl kv hkv
      simp [hEq] at this
    have hext := regWF_extend ({ r with counter := r.counter + 1 } : Registry)
      k (r.counter + 1) h1 hk hstrict
    simp only [Registry.registerKey, hl, if_false]
    convert hext using 2

theorem regWF_foldl_unregisterKey (ks : List HKey) (r : Registry)
    (h : RegWF r) : RegWF (ks.foldl Registry.unregisterKey r) := by
  induction ks generalizing r with
  | nil => exact h
  | cons k ks ih => exact ih _ (regWF_unregisterKey r k h)

theorem regWF_cleanupUser (r : Registry) (uid : Nat) (h : RegWF r) :
    RegWF (r.cleanupUser uid) :=
  regWF_foldl_unregisterKey _ r h

theorem regWF_applyOp (r : Registry) (op : RegOp) (h : RegWF r) :
    RegWF (r.applyOp op) := by
  cases op with
  | registerUser uid st => exact regWF_registerKey r _ h
  | registerThread g t => exact regWF_registerKey r _ h
  | unregisterUser uid st => exact regWF_unregisterKey r _ h
  | unregisterThread g t => exact regWF_unregisterKey r _ h
  | cleanupUser uid => exact regWF_cleanupUser r uid h

theorem regWF_empty : RegWF Registry.empty :=
  ⟨by simp [Registry.empty], by simp [Registry.empty], by simp [Registry.empty],
   by simp [Registry.empty], by simp [Registry.empty]⟩

theorem regWF_applyOps (ops : List RegOp) : RegWF (Registry.applyOps ops) := by
  unfold Registry.applyOps
  have hgen : ∀ (os : List RegOp) (r : Registry), RegWF r →
      RegWF (os.foldl Registry.applyOp r) := by
    intro os
    induction os with
    | nil => exact fun r h => h
    | cons o os ih => exact fun r h => ih _ (regWF_applyOp r o h)
  exact hgen ops Registry.empty regWF_empty

/-- C2: after any sequence of `InputService` register/unregister/cleanup
calls starting from a fresh service, the bookkeeping dictionary never holds
two registrations for the same endpoint key, and neither does the
underlying router's handler list — re-registration removes the prior entry
first, so registering repeatedly is safe. -/
theorem c2_registry_no_duplicate_keys (ops : List RegOp) :
    (((Registry.applyOps ops).handlers.map (fun kv => kv.1))).Nodup ∧
    (((Registry.applyOps ops).routerHandlers.map HandlerEntry.key)).Nodup := by
  obtain ⟨hkeys, hkf, hrt, _, _⟩ := regWF_applyOps ops
  refine ⟨hkeys, ?_⟩
  rw [hrt, List.map_map]
  have hmm : ((Registry.applyOps ops).handlers.map
        (HandlerEntry.key ∘ fun kv => kv.2))
      = (Registry.applyOps ops).handlers.map (fun kv => kv.1) :=
    map_eq_of_forall _ _ _ (fun kv hkv => hkf kv hkv)
  rw [hmm]
  exact hkeys


/-! ### Claim C9: the outbound queue's rate bound -/

theorem length_filter_le_length {α} (p : α → Bool) (l : List α) :
    (l.filter p).length ≤ l.length :=
  List.Sublist.length_le (List.filter_sublist l)

theorem filter_replicate_true (p : Nat → Bool) (k a : Nat) (h : p a = true) :
    (List.replicate k a).filter p = List.replicate k a :=
  List.filter_eq_self.mpr (fun x hx => by
    rw [List.eq_of_mem_replicate hx]; exact h)

theorem windowCount_append_replicate (T now k : Nat) (h : List Nat) :
    windowCount T (h ++ List.replicate k now)
      = windowCount T h
        + (if (now ≤ T && T - now < 60) = true then k else 0) := by
  unfold windowCount
  rw [List.filter_append, List.length_append]
  congr 1
  by_cases hin : (now ≤ T && T - now < 60) = true
  · rw [if_pos hin, filter_replicate_true _ k now hin, List.length_replicate]
  · rw [if_neg hin]
    have : (List.replicate k now).filter (fun x => x ≤ T && T - x < 60) = [] := by
      apply List.filter_eq_nil.mpr
      intro x hx
      rw [List.eq_of_mem_replicate hx]
      exact fun hcon => hin hcon
    rw [this, List.length_nil]

theorem queueInv_iteration (maxPM bl t0 t : Nat) (s : MQ) (h : List Nat)
    (hmax : 0 < maxPM) (hmono : t0 ≤ t)
    (hup : ∀ x ∈ h, x ≤ t0)
    (hsent : s.sent = h.filter (fun x => t0 - x < 60))
    (hwin : ∀ T, windowCount T h < maxPM + bl) :
    (∀ x ∈ h ++ List.replicate (queueIteration maxPM bl t s).2 t, x ≤ t) ∧
    ((queueIteration maxPM bl t s).1).sent
      = (h ++ List.replicate (queueIteration maxPM bl t s).2 t).filter
          (fun x => t - x < 60) ∧
    (∀ T, windowCount T (h ++ List.replicate (queueIteration maxPM bl t s).2 t)
      < maxPM + bl) := by
  have hpr : s.sent.filter (fun x => t - x < 60)
      = h.filter (fun x => t - x < 60) := by
    rw [hsent, List.filter_filter]
    apply List.filter_congr
    intro x _hx
    by_cases hx60 : t - x < 60
    · have : t0 - x < 60 := Nat.lt_of_le_of_lt (Nat.sub_le_sub_right hmono x) hx60
      simp [hx60, this]
    · simp [hx60]
  have hupt : ∀ x ∈ h, x ≤ t := fun x hx => Nat.le_trans (hup x hx) hmono
  by_cases hfull : maxPM ≤ (s.sent.filter (fun x => t - x < 60)).length
  · have hk : (queueIteration maxPM bl t s).2 = 0 := by
      simp [queueIteration, hfull]
    have hs1 : ((queueIteration maxPM bl t s).1).sent
        = s.sent.filter (fun x => t - x < 60) := by
      simp [queueIteration, hfull]
    rw [hk]
    simp only [List.replicate_zero, List.append_nil]
    exact ⟨hupt, by rw [hs1, hpr], hwin⟩
  · have hlt : (s.sent.filter (fun x => t - x < 60)).length < maxPM :=
      Nat.lt_of_not_le hfull
    have hkdef : (queueIteration maxPM bl t s).2
        = ((s.queue.take (min s.queue.length bl)).filter QItem.sendSucceeds).length := by
      simp [queueIteration, hfull]
    have hkle : (queueIteration maxPM bl t s).2 ≤ bl := by
      rw [hkdef]
      calc ((s.queue.take (min s.queue.length bl)).filter QItem.sendSucceeds).length
          ≤ (s.queue.take (min s.queue.length bl)).length :=
            length_filter_le_length _ _
        _ ≤ min s.queue.length bl := by rw [List.length_take]; exact Nat.min_le_left _ _
        _ ≤ bl := Nat.min_le_right _ _
    have hs1 : ((queueIteration maxPM bl t s).1).sent
        = s.sent.filter (fun x => t - x < 60)
            ++ List.replicate (queueIteration maxPM bl t s).2 t := by
      simp [queueIteration, hfull]
    refine ⟨?_, ?_, ?_⟩
    · intro x hx
      rcases List.mem_append.mp hx with h1 | h1
      · exact hupt x h1
      · rw [List.eq_of_mem_replicate h1]
    · rw [hs1, List.filter_append, hpr,
        filter_replicate_true _ _ t (by simp)]
    · intro T
      rw [windowCount_append_replicate]
      by_cases hin : (t ≤ T && T - t < 60) = true
      · rw [if_pos hin]
        have htT : t ≤ T := by
          have := hin
          simp only [Bool.and_eq_true, decide_eq_true_eq] at this
          exact this.1
        have hcount : windowCount T h
            ≤ (h.filter (fun x => t - x < 60)).length := by
          unfold windowCount
          apply length_filter_mono
          intro x _hx hpx
          simp only [Bool.and_eq_true, decide_eq_true_eq] at hpx
          have : t - x ≤ T - x := Nat.sub_le_sub_right htT x
          simp [Nat.lt_of_le_of_lt this hpx.2]
        have hcount2 : windowCount T h < maxPM := by
          rw [← hpr] at hcount
          exact Nat.lt_of_le_of_lt hcount hlt
        exact Nat.add_lt_add_of_lt_of_le hcount2 hkle
      · rw [if_neg hin, Nat.add_zero]
        exact hwin T

theorem queueInv_run (maxPM bl : Nat) (hmax : 0 < maxPM) :
    ∀ (events : List QEvent) (t0 : Nat) (s : MQ) (h : List Nat),
    timesMono t0 events →
    (∀ x ∈ h, x ≤ t0) →
    s.sent = h.filter (fun x => t0 - x < 60) →
    (∀ T, windowCount T h < maxPM + bl) →
    ∀ T, windowCount T (runQueue maxPM bl events s h).2 < maxPM + bl := by
  intro events
  induction events with
  | nil =>
      intro t0 s h _ _ _ hwin T
      exact hwin T
  | cons e es ih =>
      intro t0 s h hm hup hsent hwin T
      cases e with
      | enq i =>
          exact ih t0 { s with queue := s.queue ++ [i] } h hm hup hsent hwin T
      | iter t =>
          obtain ⟨hle, hm'⟩ := hm
          obtain ⟨hup', hsent', hwin'⟩ :=
            queueInv_iteration maxPM bl t0 t s h hmax hle hup hsent hwin
          exact ih t _ _ hm' hup' hsent' hwin' T

/-- C9 amended: along any schedule with non-decreasing iteration times, the
number of sends with a timestamp in any trailing 60-second window is
strictly below `max_per_minute + burst_limit` (it can exceed
`max_per_minute` by up to `burst_limit - 1`, because the window check runs
only once per burst); and every dequeued item — including one whose send
fails — is removed from the queue and never re-enqueued. -/
theorem c9_queue_rate_bound (maxPM bl : Nat) (events : List QEvent)
    (hmax : 0 < maxPM) (hmono : timesMono 0 events) :
    (∀ T, windowCount T (runQueue maxPM bl events ⟨[], []⟩ []).2 < maxPM + bl) ∧
    (∀ now s, ((queueIteration maxPM bl now s).1).queue
        = if maxPM ≤ ((s.sent.filter (fun x => now - x < 60)).length)
          then s.queue
          else s.queue.drop (min s.queue.length bl)) := by
  constructor
  · intro T
    refine queueInv_run maxPM bl hmax events 0 ⟨[], []⟩ [] hmono ?_ ?_ ?_ T
    · intro x hx
      simp at hx
    · rfl
    · intro T2
      have h0 : windowCount T2 ([] : List Nat) = 0 := rfl
      rw [h0]
      exact Nat.lt_of_lt_of_le hmax (Nat.le_add_right _ _)
  · intro now s
    by_cases hfull : maxPM ≤ ((s.sent.filter (fun x => now - x < 60)).length) <;>
      simp [queueIteration, hfull]

/-- A queued item whose user lookup and send both succeed. -/
def c9item : QItem := ⟨true, true⟩

/-- A schedule: one send at time 0, then two enqueues drained in one burst
at time 1. -/
def c9events : List QEvent :=
  [.enq c9item, .iter 0, .enq c9item, .enq c9item, .iter 1]

/-- C9 counterexample: with `max_per_minute = 2` and `burst_limit = 2`, a
legal schedule produces 3 sends inside the trailing 60-second window ending
at time 1 — the claim's bound of at most `maxPerMinute` sends per window is
violated, because the window check runs only once per burst. -/
theorem c9_counterexample :
    timesMono 0 c9events ∧
    windowCount 1 (runQueue 2 2 c9events ⟨[], []⟩ []).2 = 3 ∧
    ¬ windowCount 1 (runQueue 2 2 c9events ⟨[], []⟩ []).2 ≤ 2 := by
  refine ⟨?_, by decide, by decide⟩
  show 0 ≤ 0 ∧ 0 ≤ 1 ∧ True
  exact ⟨Nat.le_refl 0, Nat.zero_le 1, trivial⟩

/-- Witness for C9 amended on the schedule `c9events`. -/
theorem c9_queue_rate_bound_witness :
    windowCount 1 (runQueue 2 2 c9events ⟨[], []⟩ []).2 < 4 :=
  (c9_queue_rate_bound 2 2 c9events (by decide)
    (show 0 ≤ 0 ∧ 0 ≤ 1 ∧ True from ⟨Nat.le_refl 0, Nat.zero_le 1, trivial⟩)).1 1

/-! ### Claim C6: reaper teardown -/

theorem find?_filter_of_imp {α} (p q : α → Bool) (l : List α)
    (h : ∀ x, p x = true → q x = true) :
    (l.filter q).find? p = l.find? p := by
  induction l with
  | nil => rfl
  | cons a as ih =>
      by_cases hq : q a
      · simp only [List.filter_cons, hq, if_true, List.find?]
        cases hp : p a
        · exact ih
        · rfl
      · have hp : p a = false := by
          cases hpa : p a
          · rfl
          · exact absurd (h a hpa) hq
        simp only [List.filter_cons, Bool.of_not_eq_true hq, if_false, List.find?, hp]
        exact ih

theorem lookup_unregisterKey (r : Registry) (k k' : HKey) :
    (r.unregisterKey k').lookup k = if k = k' then none else r.lookup k := by
  unfold Registry.lookup
  rw [unregisterKey_handlers]
  by_cases hEq : k = k'
  · subst hEq
    rw [if_pos rfl]
    have : (r.handlers.filter (fun kv => !(kv.1 == k))).find?
        (fun kv => kv.1 == k) = none := by
      apply List.find?_eq_none.mpr
      intro kv hkv
      have := (List.mem_filter.mp hkv).2
      simp only [Bool.not_eq_true'] at this
      simp [this]
    rw [this]
    rfl
  · rw [if_neg hEq]
    rw [find?_filter_of_imp]
    intro kv hkv
    simp only [beq_iff_eq] at hkv
    simp only [Bool.not_eq_true', beq_eq_false_iff_ne]
    rw [hkv]
    intro hcon
    exact hEq (hcon ▸ rfl)

theorem lookup_foldl_unregister (ks : List HKey) (r : Registry) (k : HKey) :
    (ks.foldl Registry.unregisterKey r).lookup k
      = if k ∈ ks then none else r.lookup k := by
  induction ks generalizing r with
  | nil => simp
  | cons k' ks ih =>
      show ((ks.foldl Registry.unregisterKey (r.unregisterKey k'))).lookup k = _
      rw [ih (r.unregisterKey k'), lookup_unregisterKey]
      by_cases h1 : k ∈ ks
      · simp [h1]
      · by_cases h2 : k = k'
        · simp [h1, h2]
        · simp [h1, h2]

theorem lookup_cleanupUser_user (r : Registry) (uid : Nat) (st : Option String) :
    (r.cleanupUser uid).lookup (.user uid st) = none := by
  unfold Registry.cleanupUser
  rw [lookup_foldl_unregister]
  by_cases hm : HKey.user uid st ∈
      ((r.handlers.filter (fun kv => kv.1.isUserOf uid)).map (fun kv => kv.1))
  · rw [if_pos hm]
  · rw [if_neg hm]
    unfold Registry.lookup
    cases hf : r.handlers.find? (fun kv => kv.1 == HKey.user uid st) with
    | none => rfl
    | some kv =>
        exfalso
        apply hm
        obtain ⟨l₁, l₂, hdec, _hall, hkv⟩ := find?_some_decomp _ _ _ hf
        have hmem : kv ∈ r.handlers := by rw [hdec]; simp
        simp only [beq_iff_eq] at hkv
        have hflt : kv ∈ r.handlers.filter (fun kv2 => kv2.1.isUserOf uid) := by
          apply List.mem_filter.mpr
          refine ⟨hmem, ?_⟩
          rw [hkv]
          simp [HKey.isUserOf]
        rw [← hkv]
        exact List.mem_map_of_mem (fun kv2 => kv2.1) hflt

theorem lookup_cleanupUser_thread (r : Registry) (uid : Nat) (g : Int) (t : Nat) :
    (r.cleanupUser uid).lookup (.thread g t) = r.lookup (.thread g t) := by
  unfold Registry.cleanupUser
  rw [lookup_foldl_unregister]
  rw [if_neg]
  intro hm
  obtain ⟨kv, hkv, hEq⟩ := List.mem_map.mp hm
  have := (List.mem_filter.mp hkv).2
  rw [hEq] at this
  simp [HKey.isUserOf] at this

theorem lookup_cleanupUser_none_mono (r : Registry) (uid : Nat) (k : HKey)
    (h : r.lookup k = none) : (r.cleanupUser uid).lookup k = none := by
  unfold Registry.cleanupUser
  rw [lookup_foldl_unregister]
  by_cases hm : k ∈ ((r.handlers.filter (fun kv => kv.1.isUserOf uid)).map
    (fun kv => kv.1))
  · rw [if_pos hm]
  · rw [if_neg hm]
    exact h

theorem reaperStep_db_dialogues (h n : Nat) (s : Sys) (did : String)
    (d : Dialogue) (hf : s.db.findDialogue did = some d) :
    ((reaperStep h n s did).db).dialogues
      = updateFirst (fun x => x.dialogueID == did) (reapUpd h n)
          s.db.dialogues := by
  simp only [reaperStep, hf]
  cases hcu : s.db.findUserByID d.userID with
  | none => cases htk : d.ticketID <;> simp
  | some u => cases htk : d.ticketID <;> (simp; split <;> simp)

theorem reaperStep_db_self (h n : Nat) (s : Sys) (did : String) (d : Dialogue)
    (hf : s.db.findDialogue did = some d) :
    ((reaperStep h n s did).db).findDialogue did = some (reapUpd h n d) := by
  show ((reaperStep h n s did).db).dialogues.find? _ = _
  rw [reaperStep_db_dialogues h n s did d hf]
  rw [find?_updateFirst_same _ (reapUpd h n) s.db.dialogues
    (by intro a ha; simpa using ha)]
  rw [show s.db.dialogues.find? (fun x => x.dialogueID == did) = some d from hf]
  rfl

theorem reaperStep_db_other (h n : Nat) (s : Sys) (did did2 : String)
    (hne : did2 ≠ did) :
    ((reaperStep h n s did).db).findDialogue did2 = s.db.findDialogue did2 := by
  cases hf : s.db.findDialogue did with
  | none => simp [reaperStep, hf]
  | some d =>
      show ((reaperStep h n s did).db).dialogues.find? _ = _
      rw [reaperStep_db_dialogues h n s did d hf]
      apply find?_updateFirst_other
      · intro a
        simp [reapUpd]
      · intro a ha
        simp only [beq_iff_eq] at ha
        rw [ha, beq_eq_false_iff_ne]
        intro hEq
        exact hne (Eq.symm hEq)

theorem reaperStep_users_proj (h n : Nat) (s : Sys) (did : String) (uid : Nat) :
    (((reaperStep h n s did).db).findUserByID uid).map (fun u => u.telegramID)
      = (s.db.findUserByID uid).map (fun u => u.telegramID) := by
  cases hf : s.db.findDialogue did with
  | none => simp [reaperStep, hf]
  | some d =>
      simp only [reaperStep, hf]
      cases hcu : s.db.findUserByID d.userID with
      | none => cases htk : d.ticketID <;> simp [DB.findUserByID]
      | some u =>
          cases htk : d.ticketID <;>
            (simp only [DB.findUserByID, updateTicket_users]
             split
             · show (((updateFirst _ UserRec.clearFsm _).find? _)).map _ = _
               exact find?_updateFirst_proj _ _ UserRec.clearFsm _ _
                 (fun a => rfl) (fun a => rfl)
             · rfl)

theorem reaperStep_reg_cases (h n : Nat) (s : Sys) (did : String) :
    (reaperStep h n s did).reg = s.reg ∨
    (∃ d u, s.db.findDialogue did = some d ∧
      s.db.findUserByID d.userID = some u ∧
      (reaperStep h n s did).reg = s.reg.cleanupUser u.telegramID) := by
  cases hf : s.db.findDialogue did with
  | none => left; simp [reaperStep, hf]
  | some d =>
      cases hcu : s.db.findUserByID d.userID with
      | none => left; simp [reaperStep, hf, hcu]
      | some u =>
          right
          exact ⟨d, u, rfl, hcu, by simp [reaperStep, hf, hcu]⟩

theorem reaperStep_reg_thread (h n : Nat) (s : Sys) (did : String)
    (g : Int) (t : Nat) :
    ((reaperStep h n s did).reg).lookup (.thread g t)
      = s.reg.lookup (.thread g t) := by
  rcases reaperStep_reg_cases h n s did with hc | ⟨d, u, _, _, hc⟩
  · rw [hc]
  · rw [hc, lookup_cleanupUser_thread]

theorem reaperStep_reg_user_mono (h n : Nat) (s : Sys) (did : String)
    (uid : Nat) (st : Option String)
    (habs : s.reg.lookup (.user uid st) = none) :
    ((reaperStep h n s did).reg).lookup (.user uid st) = none := by
  rcases reaperStep_reg_cases h n s did with hc | ⟨d, u, _, _, hc⟩
  · rw [hc]; exact habs
  · rw [hc]; exact lookup_cleanupUser_none_mono _ _ _ habs

theorem reaperStep_reg_user_cleaned (h n : Nat) (s : Sys) (did : String)
    (d : Dialogue) (u : UserRec) (hf : s.db.findDialogue did = some d)
    (hu : s.db.findUserByID d.userID = some u) (st : Option String) :
    ((reaperStep h n s did).reg).lookup (.user u.telegramID st) = none := by
  have hc : (reaperStep h n s did).reg = s.reg.cleanupUser u.telegramID := by
    simp [reaperStep, hf, hu]
  rw [hc]
  exact lookup_cleanupUser_user _ _ _

theorem reaperFold_db_other (h n : Nat) (ids : List String) :
    ∀ (s : Sys) (did : String), did ∉ ids →
    ((ids.foldl (reaperStep h n) s).db).findDialogue did
      = s.db.findDialogue did := by
  induction ids with
  | nil => intro s did _; rfl
  | cons id0 rest ih =>
      intro s did hmem
      have hne : did ≠ id0 := fun hEq => hmem (hEq ▸ List.mem_cons_self id0 rest)
      show ((rest.foldl (reaperStep h n) (reaperStep h n s id0)).db).findDialogue did = _
      rw [ih _ did (fun hc => hmem (List.mem_cons_of_mem id0 hc))]
      exact reaperStep_db_other h n s id0 did hne

theorem reaperFold_reg_thread (h n : Nat) (ids : List String) :
    ∀ (s : Sys) (g : Int) (t : Nat),
    ((ids.foldl (reaperStep h n) s).reg).lookup (.thread g t)
      = s.reg.lookup (.thread g t) := by
  induction ids with
  | nil => intro s g t; rfl
  | cons id0 rest ih =>
      intro s g t
      show ((rest.foldl (reaperStep h n) (reaperStep h n s id0)).reg).lookup _ = _
      rw [ih _ g t]
      exact reaperStep_reg_thread h n s id0 g t

theorem reaperFold_reg_user_mono (h n : Nat) (ids : List String) :
    ∀ (s : Sys) (uid : Nat) (st : Option String),
    s.reg.lookup (.user uid st) = none →
    ((ids.foldl (reaperStep h n) s).reg).lookup (.user uid st) = none := by
  induction ids with
  | nil => intro s uid st habs; exact habs
  | cons id0 rest ih =>
      intro s uid st habs
      show ((rest.foldl (reaperStep h n) (reaperStep h n s id0)).reg).lookup _ = _
      exact ih _ uid st (reaperStep_reg_user_mono h n s id0 uid st habs)

theorem reaperStep_db_users (h n : Nat) (s : Sys) (did : String) (d : Dialogue)
    (hf : s.db.findDialogue did = some d) :
    ((reaperStep h n s did).db).users
      = (match s.db.findUserByID d.userID with
         | some u =>
             if u.getFsmState == some "has_ticket" then
               updateFirst (fun x => x.userID == d.userID) UserRec.clearFsm
                 s.db.users
             else s.db.users
         | none => s.db.users) := by
  simp only [reaperStep, hf]
  cases hcu : s.db.findUserByID d.userID with
  | none => cases htk : d.ticketID <;> simp
  | some u => cases htk : d.ticketID <;> (simp; split <;> simp)

theorem findUser_noPtr_step (h n : Nat) (s : Sys) (did : String) (uid : Nat)
    (hP : ∀ u', s.db.findUserByID uid = some u' →
      (u'.getFsmState == some "has_ticket") = false) :
    ∀ u', ((reaperStep h n s did).db).findUserByID uid = some u' →
      (u'.getFsmState == some "has_ticket") = false := by
  intro u' hu'
  cases hf : s.db.findDialogue did with
  | none =>
      rw [show reaperStep h n s did = s by simp [reaperStep, hf]] at hu'
      exact hP u' hu'
  | some d =>
      have hu1 : ((reaperStep h n s did).db).users.find?
          (fun x => x.userID == uid) = some u' := hu'
      rw [reaperStep_db_users h n s did d hf] at hu1
      cases hcu : s.db.findUserByID d.userID with
      | none =>
          rw [hcu] at hu1
          exact hP u' hu1
      | some u =>
          rw [hcu] at hu1
          have hu2 : List.find? (fun x => x.userID == uid)
              (if (u.getFsmState == some "has_ticket") = true then
                updateFirst (fun x => x.userID == d.userID) UserRec.clearFsm
                  s.db.users
               else s.db.users) = some u' := hu1
          by_cases hht : (u.getFsmState == some "has_ticket") = true
          · rw [if_pos hht] at hu2
            by_cases huid : uid = d.userID
            · subst huid
              rw [find?_updateFirst_same (fun x => x.userID == d.userID)
                UserRec.clearFsm s.db.users (fun a ha => ha)] at hu2
              have hcu' : List.find? (fun x => x.userID == d.userID) s.db.users
                  = some u := hcu
              rw [hcu'] at hu2
              simp only [Option.map_some'] at hu2
              rw [← Option.some_inj.mp hu2]
              simp [UserRec.clearFsm, UserRec.getFsmState]
            · rw [find?_updateFirst_other (fun x => x.userID == d.userID)
                (fun x => x.userID == uid) UserRec.clearFsm s.db.users
                (fun a => rfl) ?_] at hu2
              · exact hP u' hu2
              · intro a ha
                simp only [beq_iff_eq] at ha
                show (a.userID == uid) = false
                rw [ha, beq_eq_false_iff_ne]
                intro hcon
                exact huid (Eq.symm hcon)
          · rw [if_neg hht] at hu2
            exact hP u' hu2

theorem findUser_noPtr_reaped (h n : Nat) (s : Sys) (did : String)
    (d : Dialogue) (hf : s.db.findDialogue did = some d) :
    ∀ u', ((reaperStep h n s did).db).findUserByID d.userID = some u' →
      (u'.getFsmState == some "has_ticket") = false := by
  intro u' hu'
  have hu1 : ((reaperStep h n s did).db).users.find?
      (fun x => x.userID == d.userID) = some u' := hu'
  rw [reaperStep_db_users h n s did d hf] at hu1
  cases hcu : s.db.findUserByID d.userID with
  | none =>
      rw [hcu] at hu1
      have hu2 : List.find? (fun x => x.userID == d.userID) s.db.users
          = some u' := hu1
      have hcu' : List.find? (fun x => x.userID == d.userID) s.db.users
          = none := hcu
      rw [hcu'] at hu2
      exact Option.noConfusion hu2
  | some u =>
      rw [hcu] at hu1
      have hu2 : List.find? (fun x => x.userID == d.userID)
          (if (u.getFsmState == some "has_ticket") = true then
            updateFirst (fun x => x.userID == d.userID) UserRec.clearFsm
              s.db.users
           else s.db.users) = some u' := hu1
      have hcu' : List.find? (fun x => x.userID == d.userID) s.db.users
          = some u := hcu
      by_cases hht : (u.getFsmState == some "has_ticket") = true
      · rw [if_pos hht] at hu2
        rw [find?_updateFirst_same (fun x => x.userID == d.userID)
          UserRec.clearFsm s.db.users (fun a ha => ha)] at hu2
        rw [hcu'] at hu2
        simp only [Option.map_some'] at hu2
        rw [← Option.some_inj.mp hu2]
        simp [UserRec.clearFsm, UserRec.getFsmState]
      · rw [if_neg hht] at hu2
        rw [hcu'] at hu2
        rw [← Option.some_inj.mp hu2]
        exact Bool.of_not_eq_true hht

theorem reaperFold_noPtr_mono (h n : Nat) (ids : List String) :
    ∀ (s : Sys) (uid : Nat),
    (∀ u', s.db.findUserByID uid = some u' →
      (u'.getFsmState == some "has_ticket") = false) →
    ∀ u', ((ids.foldl (reaperStep h n) s).db).findUserByID uid = some u' →
      (u'.getFsmState == some "has_ticket") = false := by
  induction ids with
  | nil => intro s uid hP; exact hP
  | cons id0 rest ih =>
      intro s uid hP
      exact ih _ uid (findUser_noPtr_step h n s id0 uid hP)

theorem reaperStep_outbox (h n : Nat) (s : Sys) (did : String) (d : Dialogue)
    (hf : s.db.findDialogue did = some d) :
    (reaperStep h n s did).outbox
      = s.outbox ++
        (match (s.db.findUserByID d.userID).map (fun u => u.telegramID) with
         | some tg => [⟨.userTg tg, "/support/dialogue_auto_closed"⟩]
         | none => []) ++
        [⟨.groupThread d.groupID d.threadID,
          "/support/operator_dialogue_auto_closed"⟩] := by
  simp only [reaperStep, hf]

theorem reaperStep_outbox_mono (h n : Nat) (s : Sys) (did : String)
    (x : Notice) (hx : x ∈ s.outbox) : x ∈ (reaperStep h n s did).outbox := by
  cases hf : s.db.findDialogue did with
  | none =>
      rw [show reaperStep h n s did = s by simp [reaperStep, hf]]
      exact hx
  | some d =>
      rw [reaperStep_outbox h n s did d hf]
      exact List.mem_append_left _ (List.mem_append_left _ hx)

theorem reaperFold_outbox_mono (h n : Nat) (ids : List String) :
    ∀ (s : Sys) (x : Notice), x ∈ s.outbox →
    x ∈ ((ids.foldl (reaperStep h n) s)).outbox := by
  induction ids with
  | nil => intro s x hx; exact hx
  | cons id0 rest ih =>
      intro s x hx
      exact ih _ x (reaperStep_outbox_mono h n s id0 x hx)

theorem reaperFold_spec (h n : Nat) (ids : List String) :
    ∀ (s : Sys) (did : String) (d : Dialogue),
    ids.Nodup → did ∈ ids → s.db.findDialogue did = some d →
    ((ids.foldl (reaperStep h n) s).db).findDialogue did
        = some (reapUpd h n d) ∧
    (∀ tg, (s.db.findUserByID d.userID).map (fun u => u.telegramID) = some tg →
      ∀ st, ((ids.foldl (reaperStep h n) s).reg).lookup (.user tg st) = none) ∧
    (∀ u', ((ids.foldl (reaperStep h n) s).db).findUserByID d.userID = some u' →
      (u'.getFsmState == some "has_ticket") = false) ∧
    (∀ tg, (s.db.findUserByID d.userID).map (fun u => u.telegramID) = some tg →
      (⟨.userTg tg, "/support/dialogue_auto_closed"⟩ : Notice)
        ∈ ((ids.foldl (reaperStep h n) s)).outbox) ∧
    (⟨.groupThread d.groupID d.threadID,
      "/support/operator_dialogue_auto_closed"⟩ : Notice)
        ∈ ((ids.foldl (reaperStep h n) s)).outbox := by
  induction ids with
  | nil => intro s did d _ hmem _; exact absurd hmem (List.not_mem_nil did)
  | cons id0 rest ih =>
      intro s did d hnd hmem hf
      have hnd' := List.nodup_cons.mp hnd
      rcases List.mem_cons.mp hmem with rfl | hmem'
      · -- this step reaps `did` itself; the rest of the pass preserves it
        refine ⟨?_, ?_, ?_, ?_, ?_⟩
        · show ((rest.foldl (reaperStep h n) (reaperStep h n s did)).db).findDialogue did = _
          rw [reaperFold_db_other h n rest _ did hnd'.1]
          exact reaperStep_db_self h n s did d hf
        · intro tg htg st
          obtain ⟨u, hu, hutg⟩ : ∃ u, s.db.findUserByID d.userID = some u ∧
              u.telegramID = tg := by
            cases hcu : s.db.findUserByID d.userID with
            | none => rw [hcu] at htg; simp at htg
            | some u =>
                rw [hcu] at htg
                simp only [Option.map_some'] at htg
                exact ⟨u, rfl, Option.some_inj.mp htg⟩
          show ((rest.foldl (reaperStep h n) (reaperStep h n s did)).reg).lookup _ = _
          apply reaperFold_reg_user_mono
          rw [← hutg]
          exact reaperStep_reg_user_cleaned h n s did d u hf hu st
        · show ∀ u', ((rest.foldl (reaperStep h n)
              (reaperStep h n s did)).db).findUserByID d.userID = some u' →
              (u'.getFsmState == some "has_ticket") = false
          exact reaperFold_noPtr_mono h n rest (reaperStep h n s did) d.userID
            (findUser_noPtr_reaped h n s did d hf)
        · intro tg htg
          show _ ∈ ((rest.foldl (reaperStep h n) (reaperStep h n s did))).outbox
          apply reaperFold_outbox_mono
          rw [reaperStep_outbox h n s did d hf, htg]
          simp
        · show _ ∈ ((rest.foldl (reaperStep h n) (reaperStep h n s did))).outbox
          apply reaperFold_outbox_mono
          rw [reaperStep_outbox h n s did d hf]
          simp
      · -- another id is reaped first; transport the hypotheses across it
        have hne : did ≠ id0 := fun hEq => hnd'.1 (hEq ▸ hmem')
        have hf1 : ((reaperStep h n s id0).db).findDialogue did = some d := by
          rw [reaperStep_db_other h n s id0 did hne]
          exact hf
        obtain ⟨ha, hb, hc, hdn, he⟩ :=
          ih (reaperStep h n s id0) did d hnd'.2 hmem' hf1
        refine ⟨ha, ?_, hc, ?_, he⟩
        · intro tg htg st
          apply hb tg _ st
          rw [reaperStep_users_proj h n s id0 d.userID]
          exact htg
        · intro tg htg
          apply hdn tg
          rw [reaperStep_users_proj h n s id0 d.userID]
          exact htg

/-- C6 amended: every session the reaper closes ends with
`closedBy="system"` (status `closed`, state `CLOSED`), the client's
persisted pointer is cleared (after the pass the client's row no longer
carries the `has_ticket` FSM state), all of the client's user-endpoint
handler registrations are cleaned up, and both parties are notified (the
client via `/support/dialogue_auto_closed`, the staff thread via
`/support/operator_dialogue_auto_closed`) — but the reaper does not go
through the `close_dialogue` teardown: the staff thread-handler
registration is left untouched by the entire pass. -/
theorem c6_reaper_teardown (s : Sys) (now hours : Nat) (did : String)
    (hnodup : (s.db.dialogues.map (fun d => d.dialogueID)).Nodup)
    (hmem : did ∈ staleIds s.db now hours) :
    (∃ d, s.db.findDialogue did = some d ∧
      (reaperPass s now hours).db.findDialogue did = some (reapUpd hours now d) ∧
      (reapUpd hours now d).status = "closed" ∧
      (reapUpd hours now d).closedBy = some "system" ∧
      (∀ u', (reaperPass s now hours).db.findUserByID d.userID = some u' →
        (u'.getFsmState == some "has_ticket") = false) ∧
      (∀ tg, (s.db.findUserByID d.userID).map (fun u => u.telegramID) = some tg →
        ∀ st, ((reaperPass s now hours).reg).lookup (.user tg st) = none) ∧
      (∀ tg, (s.db.findUserByID d.userID).map (fun u => u.telegramID) = some tg →
        (⟨.userTg tg, "/support/dialogue_auto_closed"⟩ : Notice)
          ∈ (reaperPass s now hours).outbox) ∧
      (⟨.groupThread d.groupID d.threadID,
        "/support/operator_dialogue_auto_closed"⟩ : Notice)
          ∈ (reaperPass s now hours).outbox) ∧
    (∀ g t, ((reaperPass s now hours).reg).lookup (.thread g t)
      = s.reg.lookup (.thread g t)) := by
  have hsnodup : (staleIds s.db now hours).Nodup := by
    unfold staleIds
    exact List.Nodup.sublist
      ((List.filter_sublist s.db.dialogues).map (fun d => d.dialogueID)) hnodup
  obtain ⟨d, hdf, hdid⟩ := List.mem_map.mp hmem
  have hmemd : d ∈ s.db.dialogues := List.mem_of_mem_filter hdf
  have hfind : s.db.findDialogue did = some d := by
    show s.db.dialogues.find? _ = some d
    rw [← hdid]
    exact find?_key_of_mem_nodup (fun x => x.dialogueID) s.db.dialogues d
      hnodup hmemd
  obtain ⟨ha, hb, hc, hdn, he⟩ := reaperFold_spec hours now
    (staleIds s.db now hours) s did d hsnodup hmem hfind
  refine ⟨⟨d, hfind, ha, rfl, rfl, hc, hb, hdn, he⟩, ?_⟩
  intro g t
  exact reaperFold_reg_thread hours now (staleIds s.db now hours) s g t

/-- An active dialogue that has been idle past the threshold. -/
def c6dlg : Dialogue :=
  { dialogueID := "support_6", ticketID := some 6, userID := 1,
    operatorID := some 9, groupID := some 5, threadID := some 11,
    status := "active", state := "in_progress", lastActivityTime := 0,
    updatedAt := 0, closedAt := none, closedBy := none, closeReason := none,
    messageCount := 1, notesContext := [] }

/-- A state with the stale dialogue and both of its handler registrations
(the client's user handler and the staff thread handler). -/
def c6s : Sys :=
  { db := { users := [⟨1, 60, some ⟨"has_ticket", [("dialogue_id", "support_6")]⟩⟩],
            dialogues := [c6dlg],
            tickets := [⟨6, 1, some "support_6", .in_progress, none⟩],
            operators := [9] },
    reg := (Registry.empty.registerKey (.user 60 (some "has_ticket"))).registerKey
      (.thread 5 11),
    outbox := [] }

/-- C6 counterexample: after the reaper pass the dialogue is closed with
`closedBy="system"`, but the staff thread-handler registration belonging to
the reaped session is still in the registry — the claim that no handler
registration of the reaped session remains is false. -/
theorem c6_counterexample :
    ((reaperPass c6s 200000 24).db.findDialogue "support_6").map
        Dialogue.closedBy = some (some "system") ∧
    ((reaperPass c6s 200000 24).db.findDialogue "support_6").map
        Dialogue.status = some "closed" ∧
    ((reaperPass c6s 200000 24).reg.lookup (.thread 5 11)).isSome = true := by
  refine ⟨by decide, by decide, by decide⟩

/-- Witness for C6 amended: the client's user-endpoint handler is removed
by the pass. -/
theorem c6_reaper_teardown_witness :
    ((reaperPass c6s 200000 24).reg).lookup (.user 60 (some "has_ticket"))
      = none := by
  have h := c6_reaper_teardown c6s 200000 24 "support_6" (by decide) (by decide)
  obtain ⟨⟨d, hd, _, _, _, _, hclean, _, _⟩, _⟩ := h
  have hdEq : d = c6dlg := by
    have hsome : some d = some c6dlg := by rw [← hd]; decide
    exact Option.some_inj.mp hsome
  subst hdEq
  exact hclean 60 (by decide) (some "has_ticket")

/-! ### Claim C1: the persisted-pointer invariant -/

/-- The `active` dialogues whose client is `uid`. -/
def activesOf (db : DB) (uid : Nat) : List Dialogue :=
  db.dialogues.filter (fun d => d.status == "active" && d.userID == uid)

/-- The client's persisted session pointer: the `dialogue_id` stored in the
FSM context while the FSM state is `has_ticket`, empty otherwise. -/
def clientPtr (db : DB) (uid : Nat) : Option String :=
  match db.findUserByID uid with
  | none => none
  | some u =>
      if u.getFsmState == some "has_ticket" then
        ctxGet u.getFsmContext "dialogue_id"
      else none

/-- The claim's invariant at one client: a non-empty pointer iff exactly
one `active` session for that client, with the pointer equal to that
session's id. -/
def ptrClaimOK (db : DB) (uid : Nat) : Bool :=
  match clientPtr db uid with
  | some p => (activesOf db uid).map (fun d => d.dialogueID) == [p]
  | none => !((activesOf db uid).length == 1)

/-- The claim's invariant over all clients. -/
def ClaimPointerInv (db : DB) : Prop :=
  ∀ uid ∈ db.users.map (fun u => u.userID), ptrClaimOK db uid = true

/-- The strengthened inductive form: an empty pointer means no active
session at all. -/
def ptrStrongOK (db : DB) (uid : Nat) : Bool :=
  match clientPtr db uid with
  | some p => (activesOf db uid).map (fun d => d.dialogueID) == [p]
  | none => (activesOf db uid).isEmpty

/-- The inductive invariant: strengthened pointer condition for every
client, plus primary-key uniqueness of dialogue ids. -/
def StrongInv (db : DB) : Prop :=
  (∀ uid ∈ db.users.map (fun u => u.userID), ptrStrongOK db uid = true) ∧
  (db.dialogues.map (fun d => d.dialogueID)).Nodup

/-- The lifecycle operations the claim ranges over. -/
inductive SysOp
  | create (ticketID operatorId : Nat) (groupId : Int)
      (threadResult : Option Nat) (ctx : List (String × String)) (now : Nat)
  | close (dialogueId : String) (closedBy : String) (reason : Option String)
      (now : Nat)

/-- Apply one lifecycle operation (keeping only the state). -/
def applySysOp (s : Sys) : SysOp → Sys
  | .create t o g th c n => (createSupportDialogue s t o g th c n).1
  | .close id cb r n => (closeDialogue s id cb r n).1

/-- The amendment's precondition on a run: a session is only created for a
client who has no active session at that moment (the code itself never
checks this). -/
def createGuard (s : Sys) : SysOp → Prop
  | .create t _ _ _ _ _ =>
      (match s.db.findTicket t with
       | some tk => activesOf s.db tk.userID = []
       | none => True)
  | .close _ _ _ _ => True

/-- A guarded run: every create happens for a client with no active
session. -/
def GuardedRun : Sys → List SysOp → Prop
  | _, [] => True
  | s, op :: ops => createGuard s op ∧ GuardedRun (applySysOp s op) ops

theorem map_updateFirst_proj {α β} (p : α → Bool) (f : α → α) (proj : α → β)
    (l : List α) (hp : ∀ a, proj (f a) = proj a) :
    (updateFirst p f l).map proj = l.map proj := by
  induction l with
  | nil => rfl
  | cons a as ih =>
      by_cases ha : p a
      · simp [updateFirst, ha, hp a]
      · simp [updateFirst, ha, ih]

theorem filter_updateFirst_unchanged {α} (p q : α → Bool) (f : α → α)
    (l : List α) (x : α) (hfind : l.find? p = some x)
    (hqx : q x = false) (hqfx : q (f x) = false) :
    (updateFirst p f l).filter q = l.filter q := by
  obtain ⟨l₁, l₂, hdec, hall, hx⟩ := find?_some_decomp p l x hfind
  rw [updateFirst_decomp p f l l₁ l₂ x hdec hall hx, hdec]
  rw [List.filter_append, List.filter_append,
    List.filter_cons_of_neg (by simp [hqx, hqfx]),
    List.filter_cons_of_neg (by simp [hqx, hqfx])]

theorem filter_updateFirst_drop {α} (p q : α → Bool) (f : α → α)
    (l : List α) (x : α) (hfind : l.find? p = some x)
    (hqx : q x = true) (hqfx : q (f x) = false)
    (hsingle : l.filter q = [x]) :
    (updateFirst p f l).filter q = [] := by
  obtain ⟨l₁, l₂, hdec, hall, hx⟩ := find?_some_decomp p l x hfind
  rw [updateFirst_decomp p f l l₁ l₂ x hdec hall hx]
  rw [hdec, List.filter_append, List.filter_cons_of_pos hqx] at hsingle
  have h1 : l₁.filter q = [] ∧ l₂.filter q = [] := by
    cases hfl : l₁.filter q with
    | nil =>
        rw [hfl] at hsingle
        simp only [List.nil_append, List.cons.injEq] at hsingle
        exact ⟨rfl, hsingle.2⟩
    | cons y ys =>
        rw [hfl] at hsingle
        simp only [List.cons_append, List.cons.injEq] at hsingle
        exfalso
        have happ : ys ++ x :: l₂.filter q = [] := by
          simpa using hsingle.2
        simp at happ
  rw [List.filter_append, List.filter_cons_of_neg (by simp [hqfx])]
  simp [h1.1, h1.2]

theorem create_success_parts (s : Sys) (t o : Nat) (g : Int) (thid : Nat)
    (ctx : List (String × String)) (now : Nat) (tk : TicketRec) (u : UserRec)
    (hg : (g == 0) = false) (hop : s.db.operators.contains o = true)
    (htk : s.db.findTicket t = some tk)
    (hu : s.db.findUserByID tk.userID = some u)
    (hdup : s.db.findDialogue ("support_" ++ toString t) = none) :
    ((createSupportDialogue s t o g (some thid) ctx now).1).db.dialogues
      = s.db.dialogues
        ++ [newDialogueRow ("support_" ++ toString t) t u.userID o g thid ctx now] ∧
    ((createSupportDialogue s t o g (some thid) ctx now).1).db.users
      = updateFirst (fun x => x.userID == tk.userID)
          (fun x => x.setFsmState "has_ticket"
            (newFsmCtx ("support_" ++ toString t) t thid o now)) s.db.users ∧
    (createSupportDialogue s t o g (some thid) ctx now).2
      = some ("support_" ++ toString t) := by
  have hdup' : (s.db.findDialogue ("support_" ++ toString t)).isSome = false := by
    rw [hdup]; rfl
  have hopm : o ∈ s.db.operators := by simpa using hop
  refine ⟨?_, ?_, ?_⟩ <;>
    simp [createSupportDialogue, hg, hop, hopm, htk, hu, hdup']

theorem create_state_cases (s : Sys) (t o : Nat) (g : Int)
    (th : Option Nat) (ctx : List (String × String)) (now : Nat) :
    (createSupportDialogue s t o g th ctx now) = (s, none) ∨
    (∃ tk u thid, th = some thid ∧ (g == 0) = false ∧
      s.db.operators.contains o = true ∧
      s.db.findTicket t = some tk ∧
      s.db.findUserByID tk.userID = some u ∧
      s.db.findDialogue ("support_" ++ toString t) = none) := by
  by_cases hg : (g == 0) = true
  · left; simp [createSupportDialogue, hg]
  · have hg' : (g == 0) = false := Bool.of_not_eq_true hg
    by_cases hop : s.db.operators.contains o = true
    · cases htk : s.db.findTicket t with
      | none => left; simp [createSupportDialogue, hg', hop, htk]
      | some tk =>
          cases hth : th with
          | none => left; simp [createSupportDialogue, hg', hop, htk]
          | some thid =>
              cases hu : s.db.findUserByID tk.userID with
              | none => left; simp [createSupportDialogue, hg', hop, htk, hu]
              | some u =>
                  by_cases hdup :
                      (s.db.findDialogue ("support_" ++ toString t)).isSome = true
                  · left; simp [createSupportDialogue, hg', hop, htk, hu, hdup]
                  · right
                    exact ⟨tk, u, thid, rfl, hg', hop, rfl, hu,
                      Option.not_isSome_iff_eq_none.mp hdup⟩
    · left
      have hop' : o ∉ s.db.operators := by
        intro hmem
        exact hop (by simpa using hmem)
      simp [createSupportDialogue, hg', hop']

theorem strongInv_create (s : Sys) (t o : Nat) (g : Int) (th : Option Nat)
    (ctx : List (String × String)) (now : Nat) (hInv : StrongInv s.db)
    (hguard : createGuard s (SysOp.create t o g th ctx now)) :
    StrongInv ((createSupportDialogue s t o g th ctx now).1).db := by
  rcases create_state_cases s t o g th ctx now with hcase |
    ⟨tk, u, thid, hth, hg, hop, htk, hu, hdup⟩
  · rw [show (createSupportDialogue s t o g th ctx now).1 = s by rw [hcase]]
    exact hInv
  · subst hth
    obtain ⟨hdlgs, husers, _hval⟩ :=
      create_success_parts s t o g thid ctx now tk u hg hop htk hu hdup
    obtain ⟨hptr, hnodup⟩ := hInv
    have huid : u.userID = tk.userID := by
      obtain ⟨l₁, l₂, _, _, hpred⟩ := find?_some_decomp _ _ _ hu
      simpa using hpred
    have hguard' : activesOf s.db tk.userID = [] := by
      simpa [createGuard, htk] using hguard
    have hmap : ((createSupportDialogue s t o g (some thid) ctx now).1).db.users.map
        (fun x => x.userID) = s.db.users.map (fun x => x.userID) := by
      rw [husers]
      exact map_updateFirst_proj _ _ _ _ (fun a => rfl)
    constructor
    · intro uid hmem
      have hmem' : uid ∈ s.db.users.map (fun x => x.userID) := by
        rwa [hmap] at hmem
      by_cases hEq : uid = tk.userID
      · subst hEq
        have hfu : ((createSupportDialogue s t o g (some thid) ctx now).1).db.findUserByID
            tk.userID = some (u.setFsmState "has_ticket"
              (newFsmCtx ("support_" ++ toString t) t thid o now)) := by
          show ((createSupportDialogue s t o g (some thid) ctx now).1).db.users.find? _ = _
          rw [husers]
          rw [find?_updateFirst_same (fun x => x.userID == tk.userID)
            (fun x => x.setFsmState "has_ticket"
              (newFsmCtx ("support_" ++ toString t) t thid o now))
            s.db.users (fun a ha => ha)]
          rw [show s.db.users.find? (fun x => x.userID == tk.userID) = some u from hu]
          rfl
        have hptr' : clientPtr ((createSupportDialogue s t o g (some thid) ctx now).1).db
            tk.userID = some ("support_" ++ toString t) := by
          unfold clientPtr
          rw [hfu]
          simp [UserRec.getFsmState, UserRec.setFsmState, UserRec.getFsmContext,
            ctxGet, newFsmCtx, List.find?]
        have hact : activesOf ((createSupportDialogue s t o g (some thid) ctx now).1).db
            tk.userID = [newDialogueRow ("support_" ++ toString t) t u.userID o g
              thid ctx now] := by
          unfold activesOf
          rw [hdlgs, List.filter_append]
          have h2 := hguard'
          unfold activesOf at h2
          rw [h2]
          simp [newDialogueRow, huid]
        show ptrStrongOK _ _ = true
        unfold ptrStrongOK
        rw [hptr', hact]
        simp [newDialogueRow]
      · have hfu : ((createSupportDialogue s t o g (some thid) ctx now).1).db.findUserByID
            uid = s.db.findUserByID uid := by
          show ((createSupportDialogue s t o g (some thid) ctx now).1).db.users.find? _
            = s.db.users.find? _
          rw [husers]
          apply find?_updateFirst_other
          · intro a; rfl
          · intro a ha
            simp only [beq_iff_eq] at ha
            rw [ha, beq_eq_false_iff_ne]
            intro hcon
            exact hEq (Eq.symm hcon)
        have hactu : activesOf ((createSupportDialogue s t o g (some thid) ctx now).1).db
            uid = activesOf s.db uid := by
          unfold activesOf
          rw [hdlgs, List.filter_append]
          have hsingle : ([newDialogueRow ("support_" ++ toString t) t u.userID o g
              thid ctx now].filter (fun d => d.status == "active" && d.userID == uid))
              = [] := by
            simp only [List.filter_cons, List.filter_nil]
            have : ((newDialogueRow ("support_" ++ toString t) t u.userID o g thid
                ctx now).userID == uid) = false := by
              show (u.userID == uid) = false
              rw [huid, beq_eq_false_iff_ne]
              intro hcon
              exact hEq (Eq.symm hcon)
            simp [this]
          rw [hsingle]
          simp
        have hcp : clientPtr ((createSupportDialogue s t o g (some thid) ctx now).1).db uid
            = clientPtr s.db uid := by
          unfold clientPtr
          rw [hfu]
        have horig := hptr uid hmem'
        show ptrStrongOK _ _ = true
        unfold ptrStrongOK at horig ⊢
        rw [hcp, hactu]
        exact horig
    · rw [hdlgs, List.map_append]
      rw [List.nodup_append]
      refine ⟨hnodup, by simp, ?_⟩
      intro a ha hb
      simp only [List.map_cons, List.map_nil, List.mem_singleton] at hb
      subst hb
      obtain ⟨d0, hd0, hd0id⟩ := List.mem_map.mp ha
      have hnone := List.find?_eq_none.mp hdup d0 hd0
      apply hnone
      show (d0.dialogueID == "support_" ++ toString t) = true
      rw [hd0id]
      exact beq_self_eq_true _

theorem closeDialogue_success_users (s : Sys) (id cb : String)
    (r : Option String) (now : Nat) (d : Dialogue)
    (hd : s.db.findDialogue id = some d) (hact : d.status = "active") :
    ((closeDialogue s id cb r now).1).db.users
      = (match s.db.findUserByID d.userID with
         | some u =>
             if u.getFsmState == some "has_ticket" &&
                ctxGet u.getFsmContext "dialogue_id" == some id then
               updateFirst (fun x => x.userID == d.userID) UserRec.clearFsm
                 s.db.users
             else s.db.users
         | none => s.db.users) := by
  simp only [closeDialogue, hd, hact]
  cases hcu : s.db.findUserByID d.userID with
  | none => cases htk : d.ticketID <;> simp
  | some u => cases htk : d.ticketID <;> (simp; split <;> simp)

theorem clientPtr_some_iff (db : DB) (uid : Nat) (p : String) :
    clientPtr db uid = some p ↔
      ∃ u, db.findUserByID uid = some u ∧
        (u.getFsmState == some "has_ticket") = true ∧
        ctxGet u.getFsmContext "dialogue_id" = some p := by
  unfold clientPtr
  cases hcu : db.findUserByID uid with
  | none => simp
  | some u =>
      show (if (u.getFsmState == some "has_ticket") = true then
          ctxGet u.getFsmContext "dialogue_id" else none) = some p ↔ _
      by_cases hst : (u.getFsmState == some "has_ticket") = true
      · rw [if_pos hst]
        constructor
        · intro h
          exact ⟨u, rfl, hst, h⟩
        · rintro ⟨u', hu', _hst', hctx⟩
          rw [show u' = u from (Option.some_inj.mp hu').symm] at hctx
          exact hctx
      · rw [if_neg hst]
        constructor
        · intro h
          simp at h
        · rintro ⟨u', hu', hst', _hctx⟩
          rw [show u' = u from (Option.some_inj.mp hu').symm] at hst'
          exact absurd hst' hst

theorem strongInv_close (s : Sys) (id cb : String) (r : Option String)
    (now : Nat) (hInv : StrongInv s.db) :
    StrongInv ((closeDialogue s id cb r now).1).db := by
  obtain ⟨hptr, hnodup⟩ := hInv
  cases hd : s.db.findDialogue id with
  | none =>
      have hstay : (closeDialogue s id cb r now).1 = s := by
        simp [closeDialogue, hd]
      rw [hstay]
      exact ⟨hptr, hnodup⟩
  | some d =>
      by_cases hact : d.status = "active"
      · obtain ⟨_, hdlgs⟩ := closeDialogue_success s id cb r now d hd hact
        have husers := closeDialogue_success_users s id cb r now d hd hact
        obtain ⟨l₁, l₂, hdec, hall, hpred⟩ := find?_some_decomp _ _ _ hd
        have hdid : d.dialogueID = id := by simpa using hpred
        have hdmem : d ∈ s.db.dialogues := by rw [hdec]; simp
        have hdact : d ∈ activesOf s.db d.userID := by
          unfold activesOf
          apply List.mem_filter.mpr
          exact ⟨hdmem, by simp [hact]⟩
        have hd' : List.find? (fun x => x.dialogueID == id) s.db.dialogues
            = some d := hd
        have hmapusers : ((closeDialogue s id cb r now).1).db.users.map
            (fun x => x.userID) = s.db.users.map (fun x => x.userID) := by
          rw [husers]
          cases s.db.findUserByID d.userID with
          | none => rfl
          | some u =>
              show List.map (fun x => x.userID)
                (if (u.getFsmState == some "has_ticket" &&
                    ctxGet u.getFsmContext "dialogue_id" == some id) = true then
                  updateFirst (fun x => x.userID == d.userID) UserRec.clearFsm
                    s.db.users
                else s.db.users) = List.map (fun x => x.userID) s.db.users
              by_cases hcnd : (u.getFsmState == some "has_ticket" &&
                  ctxGet u.getFsmContext "dialogue_id" == some id) = true
              · rw [if_pos hcnd]
                exact map_updateFirst_proj (fun x => x.userID == d.userID)
                  UserRec.clearFsm (fun x => x.userID) s.db.users (fun a => rfl)
              · rw [if_neg hcnd]
        have hmapdlg : ((closeDialogue s id cb r now).1).db.dialogues.map
            (fun x => x.dialogueID) = s.db.dialogues.map (fun x => x.dialogueID) := by
          rw [hdlgs]
          exact map_updateFirst_proj _ _ _ _ (fun a => rfl)
        refine ⟨?_, by rw [hmapdlg]; exact hnodup⟩
        intro uid hmem
        have hmem' : uid ∈ s.db.users.map (fun x => x.userID) := by
          rwa [hmapusers] at hmem
        by_cases hEq : uid = d.userID
        · subst hEq
          cases hcu : s.db.findUserByID d.userID with
          | none =>
              exfalso
              obtain ⟨u0, hu0, hu0id⟩ := List.mem_map.mp hmem'
              have hn := List.find?_eq_none.mp hcu u0 hu0
              apply hn
              show (u0.userID == d.userID) = true
              rw [hu0id]
              exact beq_self_eq_true _
          | some u =>
              have hptrOwner := hptr d.userID hmem'
              unfold ptrStrongOK at hptrOwner
              cases hcp : clientPtr s.db d.userID with
              | none =>
                  rw [hcp] at hptrOwner
                  exfalso
                  have hempty : activesOf s.db d.userID = [] := by
                    cases hal : activesOf s.db d.userID with
                    | nil => rfl
                    | cons y ys => rw [hal] at hptrOwner; simp at hptrOwner
                  rw [hempty] at hdact
                  simp at hdact
              | some p =>
                  rw [hcp] at hptrOwner
                  have hbeq : (activesOf s.db d.userID).map (fun x => x.dialogueID)
                      = [p] := by simpa using hptrOwner
                  obtain ⟨x, hx⟩ : ∃ x, activesOf s.db d.userID = [x] := by
                    cases hal : activesOf s.db d.userID with
                    | nil => rw [hal] at hbeq; simp at hbeq
                    | cons y ys =>
                        cases ys with
                        | nil => exact ⟨y, rfl⟩
                        | cons z zs => rw [hal] at hbeq; simp at hbeq
                  have hdx : d = x := by
                    rw [hx] at hdact
                    simpa using hdact
                  rw [← hdx] at hx
                  have hp : p = id := by
                    rw [hx] at hbeq
                    simp only [List.map_cons, List.map_nil, List.cons.injEq] at hbeq
                    rw [← hbeq.1, hdid]
                  obtain ⟨u', hu', hstt, hctx⟩ :=
                    (clientPtr_some_iff s.db d.userID p).mp hcp
                  have huEq : u' = u := by
                    rw [hcu] at hu'
                    exact (Option.some_inj.mp hu').symm
                  rw [huEq] at hstt hctx
                  have hcond : (u.getFsmState == some "has_ticket" &&
                      ctxGet u.getFsmContext "dialogue_id" == some id) = true := by
                    simp [hstt, hctx, hp]
                  have husers' : ((closeDialogue s id cb r now).1).db.users
                      = updateFirst (fun x => x.userID == d.userID)
                          UserRec.clearFsm s.db.users := by
                    rw [husers]
                    simp only [hcu]
                    rw [if_pos hcond]
                  have hfu' : ((closeDialogue s id cb r now).1).db.findUserByID
                      d.userID = some (UserRec.clearFsm u) := by
                    show ((closeDialogue s id cb r now).1).db.users.find? _ = _
                    rw [husers']
                    rw [find?_updateFirst_same (fun x => x.userID == d.userID)
                      UserRec.clearFsm s.db.users (fun a ha => ha)]
                    rw [show s.db.users.find? (fun x => x.userID == d.userID)
                      = some u from hcu]
                    rfl
                  have hcp' : clientPtr ((closeDialogue s id cb r now).1).db
                      d.userID = none := by
                    unfold clientPtr
                    rw [hfu']
                    simp [UserRec.clearFsm, UserRec.getFsmState]
                  have hact' : activesOf ((closeDialogue s id cb r now).1).db
                      d.userID = [] := by
                    unfold activesOf
                    rw [hdlgs]
                    apply filter_updateFirst_drop
                      (fun x => x.dialogueID == id)
                      (fun x => x.status == "active" && x.userID == d.userID)
                      (closedUpd cb r now) s.db.dialogues d hd'
                    · simp [hact]
                    · simp [closedUpd]
                    · exact hx
                  show ptrStrongOK _ _ = true
                  unfold ptrStrongOK
                  rw [hcp', hact']
                  rfl
        · have hfu : ((closeDialogue s id cb r now).1).db.findUserByID uid
              = s.db.findUserByID uid := by
            show ((closeDialogue s id cb r now).1).db.users.find? _
              = s.db.users.find? _
            rw [husers]
            cases hcu : s.db.findUserByID d.userID with
            | none => rfl
            | some u =>
                show List.find? (fun x => x.userID == uid)
                  (if (u.getFsmState == some "has_ticket" &&
                      ctxGet u.getFsmContext "dialogue_id" == some id) = true then
                    updateFirst (fun x => x.userID == d.userID) UserRec.clearFsm
                      s.db.users
                  else s.db.users) = List.find? (fun x => x.userID == uid)
                    s.db.users
                by_cases hcnd : (u.getFsmState == some "has_ticket" &&
                    ctxGet u.getFsmContext "dialogue_id" == some id) = true
                · rw [if_pos hcnd]
                  apply find?_updateFirst_other
                  · intro a; rfl
                  · intro a ha
                    simp only [beq_iff_eq] at ha
                    rw [ha, beq_eq_false_iff_ne]
                    intro hcon
                    exact hEq (Eq.symm hcon)
                · rw [if_neg hcnd]
          have hactu : activesOf ((closeDialogue s id cb r now).1).db uid
              = activesOf s.db uid := by
            unfold activesOf
            rw [hdlgs]
            apply filter_updateFirst_unchanged
              (fun x => x.dialogueID == id)
              (fun x => x.status == "active" && x.userID == uid)
              (closedUpd cb r now) s.db.dialogues d hd'
            · have hne : (d.userID == uid) = false := by
                rw [beq_eq_false_iff_ne]
                intro hcon
                exact hEq (Eq.symm hcon)
              simp [hne]
            · simp [closedUpd]
          have hcpu : clientPtr ((closeDialogue s id cb r now).1).db uid
              = clientPtr s.db uid := by
            unfold clientPtr
            rw [hfu]
          have horig := hptr uid hmem'
          show ptrStrongOK _ _ = true
          unfold ptrStrongOK at horig ⊢
          rw [hcpu, hactu]
          exact horig
      · have hfalse : (d.status == "active") = false :=
          beq_eq_false_iff_ne.mpr hact
        have hstay : (closeDialogue s id cb r now).1 = s := by
          simp [closeDialogue, hd, hfalse]
        rw [hstay]
        exact ⟨hptr, hnodup⟩

theorem ptrClaimOK_of_strong (db : DB) (uid : Nat)
    (h : ptrStrongOK db uid = true) : ptrClaimOK db uid = true := by
  unfold ptrStrongOK at h
  unfold ptrClaimOK
  cases hcp : clientPtr db uid with
  | some p =>
      rw [hcp] at h
      show ((activesOf db uid).map (fun d => d.dialogueID) == [p]) = true
      exact h
  | none =>
      rw [hcp] at h
      have h' : (activesOf db uid).isEmpty = true := h
      show (!((activesOf db uid).length == 1)) = true
      have hempty : activesOf db uid = [] := by
        cases hal : activesOf db uid with
        | nil => rfl
        | cons y ys => rw [hal] at h'; simp [List.isEmpty] at h'
      rw [hempty]
      rfl

theorem strongInv_run (ops : List SysOp) : ∀ s : Sys, StrongInv s.db →
    GuardedRun s ops → StrongInv ((ops.foldl applySysOp s)).db := by
  induction ops with
  | nil => intro s hInv _; exact hInv
  | cons op ops ih =>
      intro s hInv hrun
      obtain ⟨hg, hrun'⟩ := hrun
      have hstep : StrongInv ((applySysOp s op)).db := by
        cases op with
        | create t o g th c n => exact strongInv_create s t o g th c n hInv hg
        | close id cb r n => exact strongInv_close s id cb r n hInv
      exact ih (applySysOp s op) hstep hrun'

theorem strongInv_init (s : Sys) (hdlg : s.db.dialogues = [])
    (hfsm : ∀ u ∈ s.db.users, u.stateFSM = none) : StrongInv s.db := by
  constructor
  · intro uid _hmem
    have hempty : activesOf s.db uid = [] := by
      unfold activesOf
      rw [hdlg]
      rfl
    have hcp : clientPtr s.db uid = none := by
      unfold clientPtr
      cases hcu : s.db.findUserByID uid with
      | none => rfl
      | some u =>
          have hcu' : List.find? (fun x => x.userID == uid) s.db.users
              = some u := hcu
          have humem : u ∈ s.db.users := List.mem_of_find?_eq_some hcu'
          have hstate : u.stateFSM = none := hfsm u humem
          have hst : u.getFsmState = none := by
            unfold UserRec.getFsmState
            rw [hstate]
            rfl
          show (if (u.getFsmState == some "has_ticket") = true then
              ctxGet u.getFsmContext "dialogue_id" else none) = none
          rw [if_neg (by simp [hst])]
    show ptrStrongOK s.db uid = true
    unfold ptrStrongOK
    rw [hcp, hempty]
    rfl
  · rw [hdlg]
    exact List.nodup_nil

/-- C1: after any completed run of createSession/closeSession operations
from a fresh store (no sessions, no persisted pointers), every client's
persisted pointer (`has_ticket` FSM state with a `dialogue_id` in its
context) is non-empty iff exactly one active Session belongs to that
client, and then the pointer equals that Session's id — provided every
create in the run happens for a client with no active session at that
moment (a precondition the code itself never checks; without it the
invariant is violated, see the counterexample). -/
theorem c1_pointer_invariant (s : Sys) (ops : List SysOp)
    (hdlg : s.db.dialogues = [])
    (hfsm : ∀ u ∈ s.db.users, u.stateFSM = none)
    (hrun : GuardedRun s ops) :
    ClaimPointerInv ((ops.foldl applySysOp s)).db := by
  have hinv := strongInv_run ops s (strongInv_init s hdlg hfsm) hrun
  intro uid hmem
  exact ptrClaimOK_of_strong _ uid (hinv.1 uid hmem)

/-- A fresh store: one client (user 1), two open tickets for that client,
one operator, nothing else. -/
def c1s : Sys :=
  { db := { users := [⟨1, 100, none⟩],
            dialogues := [],
            tickets := [⟨1, 1, none, .opened, none⟩,
                        ⟨2, 1, none, .opened, none⟩],
            operators := [9] },
    reg := Registry.empty,
    outbox := [] }

/-- Witness for C1: a guarded run of one create from the fresh store
satisfies every hypothesis, and the invariant holds afterwards. -/
theorem c1_pointer_invariant_witness :
    ClaimPointerInv
      (([SysOp.create 1 9 5 (some 11) [] 0].foldl applySysOp c1s).db) :=
  c1_pointer_invariant c1s [SysOp.create 1 9 5 (some 11) [] 0]
    rfl (by decide) ⟨rfl, trivial⟩

/-- The claim fails without the guard: the code never checks for an
existing active session, so a second create for the same client (on a
second ticket) completes, returns `"support_2"`, leaves two active
sessions for client 1, and the pointer invariant is broken. -/
theorem c1_counterexample :
    (createSupportDialogue
        (applySysOp c1s (SysOp.create 1 9 5 (some 11) [] 0))
        2 9 5 (some 12) [] 1).2 = some "support_2" ∧
    ¬ ClaimPointerInv
      ((applySysOp (applySysOp c1s (SysOp.create 1 9 5 (some 11) [] 0))
        (SysOp.create 2 9 5 (some 12) [] 1)).db) := by
  constructor
  · decide
  · intro h
    have h1 := h 1 (by decide)
    exact absurd h1 (by decide)

end Helpbot
